import Mathlib

/-!
Verification development for the CloudTik standard cluster scaler
(`cloudtik/core/_private/cluster/cluster_scaler.py`).

The Python source is shallowly embedded below.  Times (`time.time()` floats)
are modelled as rationals; Python dicts keyed by strings are modelled as
association lists with `List.lookup` semantics; functions that can raise are
modelled in `Except`.  The provider is modelled by the data the scaler reads
from it: for each node its id, its internal ip and its tag dictionary.

A few helpers called by the scaler live in files of the repository that are
not part of this source tree (`load_metrics.py`, `tags.py`, `utils.py`,
`constants.py`, `resource_demand_scheduler.py`).  Each such helper is either
abstracted into a parameter or modelled from the specification; every such
definition carries a comment saying so.
-/

namespace CS

/-- Node tags read by the scaler.  The tag dictionary of a node may lack any
of these keys (node creation and tagging are not atomic), hence every field
is an `Option`.  Field `kind` is tag `cloudtik-node-kind`, `user_node_type`
is `cloudtik-user-node-type`, `status` is `cloudtik-node-status` and
`launch_config` is `cloudtik-launch-config` (key constants live in
`cloudtik/core/tags.py`, outside this source tree). -/
structure Tags where
  kind : Option String
  user_node_type : Option String
  status : Option String
  launch_config : Option String
deriving DecidableEq

/-- Modelled from the spec: `kind ∈ {head, worker, unmanaged}`
(`tags.py` constants `NODE_KIND_*` are outside this source tree). -/
def NODE_KIND_WORKER : String := "worker"

/-- Modelled from the spec: the head node kind constant. -/
def NODE_KIND_HEAD : String := "head"

/-- Modelled from the spec: the unmanaged node kind constant. -/
def NODE_KIND_UNMANAGED : String := "unmanaged"

/-- Modelled from the spec: node status
`∈ {uninitialized, waiting-for-ssh, syncing-files, setting-up, up-to-date,
update-failed}` (`tags.py` constant `STATUS_UP_TO_DATE`). -/
def STATUS_UP_TO_DATE : String := "up-to-date"

/-- Modelled from the spec: `tags.py` constant `STATUS_UPDATE_FAILED`. -/
def STATUS_UPDATE_FAILED : String := "update-failed"

/-- One non-terminated node as the scaler sees it through the provider:
`id` is the opaque node id, `ip = provider.internal_ip(id)` and
`tags = provider.node_tags(id)`. -/
structure Worker where
  id : String
  ip : String
  tags : Tags
deriving DecidableEq

/-- One entry of the config's `available_node_types` dict.  The per-type
dict may lack `min_workers` or `max_workers`; the source reads them with
`.get("min_workers", 0)` / `.get("max_workers", 0)`. -/
structure NodeTypeSpec where
  min_workers : Option Nat
  max_workers : Option Nat
deriving DecidableEq

/-- Python dict assignment `m[k] = v`, modelled up to `lookup` equality. -/
def setKey (m : List (String × ℚ)) (k : String) (v : ℚ) : List (String × ℚ) :=
  (k, v) :: m.filter (fun p => decide (p.1 ≠ k))

/-- `del m[k]` on a string-keyed dict modelled as an association list:
removes the first (in a dict: the only) entry with key `k`. -/
def eraseKey {β : Type} (m : List (String × β)) (k : String) : List (String × β) :=
  m.eraseP (fun p => p.1 == k)

/-! ### `_sort_based_on_last_used` (lines 588-606)

Python's `sorted(nodes, key=last_time_used, reverse=True)` is a stable sort
producing keys in descending order; `insertByKeyDesc` and `sortStableDesc`
implement exactly that semantics (a stable descending sort is unique as a
function of its input, so this is the same function). -/

/-- The sort key of `_sort_based_on_last_used`: `last_used[ip]` when the ip
has a recorded last-used time, else the sentinel `least_recently_used = -1`. -/
def lastTimeUsed (last_used : List (String × ℚ)) (w : Worker) : ℚ :=
  match last_used.lookup w.ip with
  | none => -1
  | some t => t

/-- Insert `x` into a descending-by-key list, after every element whose key
is ≥ its own (so equal keys keep their original relative order, as in a
stable sort). -/
def insertByKeyDesc (key : Worker → ℚ) (x : Worker) : List Worker → List Worker
  | [] => [x]
  | y :: ys => if key x ≤ key y then y :: insertByKeyDesc key x ys else x :: y :: ys

/-- Stable descending sort by `key` (the semantics of Python's
`sorted(_, key, reverse=True)`). -/
def sortStableDesc (key : Worker → ℚ) (l : List Worker) : List Worker :=
  l.foldl (fun acc x => insertByKeyDesc key x acc) []

/-- `StandardClusterScaler._sort_based_on_last_used`. -/
def sortBasedOnLastUsed (last_used : List (String × ℚ)) (nodes : List Worker) :
    List Worker :=
  sortStableDesc (lastTimeUsed last_used) nodes

/-! ### `_keep_worker_of_node_type` (lines 678-728) -/

/-- The enum `KeepOrTerminate` of the source (line 110). -/
inductive KeepOrTerminate where
  | keep
  | terminate
  | decide_later
deriving DecidableEq

/-- `StandardClusterScaler._keep_worker_of_node_type`.  `counts` is the
`node_type_counts` defaultdict (absent keys read as 0). -/
def keepWorkerOfNodeType (ant : List (String × NodeTypeSpec)) (tags : Tags)
    (counts : String → Nat) : KeepOrTerminate × Option String :=
  match tags.user_node_type with
  | some node_type =>
    let min_workers := ((ant.lookup node_type).bind NodeTypeSpec.min_workers).getD 0
    let max_workers := ((ant.lookup node_type).bind NodeTypeSpec.max_workers).getD 0
    if (ant.lookup node_type).isNone then
      (KeepOrTerminate.terminate,
       some ("not in available_node_types: " ++ toString (ant.map Prod.fst)))
    else
      let new_count := counts node_type + 1
      if new_count ≤ min min_workers max_workers then
        (KeepOrTerminate.keep, none)
      else if new_count > max_workers then
        (KeepOrTerminate.terminate, some "max_workers_per_type")
      else
        (KeepOrTerminate.decide_later, none)
  | none => (KeepOrTerminate.decide_later, none)

/-! ### `launch_config_ok` (lines 805-825) -/

/-- The inputs of `launch_config_ok` that come from the scaler's
configuration.  `hashLaunchConf` abstracts `hash_launch_conf(launch_config,
auth)` from `utils.py` (outside this source tree): for a node type it
returns the hash of that type's `node_config` together with the current
`auth` section; the config and auth being fixed in the environment, the
hash is a function of the node type alone. -/
structure LaunchEnv where
  disable_launch_config_check : Bool
  ant : List (String × NodeTypeSpec)
  hashLaunchConf : Option String → String

/-- `StandardClusterScaler.launch_config_ok`.  When the node has no
`user_node_type` tag, `node_type` is Python `None`, which is not a key of
`available_node_types`, so the function returns `False`. -/
def launchConfigOk (env : LaunchEnv) (tags : Tags) : Bool :=
  if env.disable_launch_config_check then true
  else
    match tags.user_node_type with
    | none => false
    | some node_type =>
      if (env.ant.lookup node_type).isNone then false
      else decide (some (env.hashLaunchConf (some node_type)) = tags.launch_config)

/-! ### `terminate_nodes_to_enforce_config_constraints` (lines 322-411) -/

/-- The mutable state threaded through the worker loop of
`terminate_nodes_to_enforce_config_constraints`: the `node_type_counts`
defaultdict, the `nodes_to_terminate` list (each entry paired with the
reason passed to `schedule_node_termination`) and the
`nodes_we_could_terminate` list. -/
structure TermState where
  counts : String → Nat
  scheduled : List (String × String)
  eligible : List String

/-- `schedule_node_termination` (lines 413-430) restricted to its effect on
the loop state: append the node to `nodes_to_terminate`, remembering the
reason it was logged and event-recorded with. -/
def scheduleTermination (st : TermState) (node_id reason : String) : TermState :=
  { st with scheduled := st.scheduled ++ [(node_id, reason)] }

/-- The local `keep_node` closure (lines 353-358): bump the per-type count
when the node carries a `user_node_type` tag. -/
def keepNode (st : TermState) (tags : Tags) : TermState :=
  match tags.user_node_type with
  | some node_type =>
    { st with counts := fun t => if t = node_type then st.counts t + 1 else st.counts t }
  | none => st

/-- The environment of one tick of
`terminate_nodes_to_enforce_config_constraints`: the current config
(`available_node_types`, global `max_workers`, `idle_timeout_minutes`,
launch-config checking), the `last_used_time_by_ip` metrics and the set
`nodes_not_allowed_to_terminate`.  The latter is computed by
`_get_nodes_needed_for_request_resources` via `get_bin_pack_residual`
(`resource_demand_scheduler.py`, outside this source tree) and is therefore
taken as a parameter; when `load_metrics.get_resource_requests()` is empty
the source leaves it `{}`, i.e. the parameter is `[]`. -/
structure TickEnv where
  launchEnv : LaunchEnv
  global_max_workers : Nat
  idle_timeout_minutes : ℚ
  lastUsed : List (String × ℚ)
  protectedNodes : List String

/-- The Python condition
`node_ip in last_used and last_used[node_ip] < horizon` (line 379). -/
def idleCheck (lastUsed : List (String × ℚ)) (horizon : ℚ) (ip : String) :
    Bool :=
  match lastUsed.lookup ip with
  | some t => decide (t < horizon)
  | none => false

/-- The body of the `for node_id in sorted_node_ids` loop (lines 363-386):
classify via `_keep_worker_of_node_type`, then terminate / keep /
decide-later exactly as the source does.  `horizon = now - 60 *
idle_timeout_minutes` (line 336). -/
def processWorker (env : TickEnv) (now : ℚ) (st : TermState) (w : Worker) :
    TermState :=
  let kr := keepWorkerOfNodeType env.launchEnv.ant w.tags st.counts
  if kr.1 = KeepOrTerminate.terminate then
    scheduleTermination st w.id (kr.2.getD "")
  else if (kr.1 = KeepOrTerminate.keep ∨ w.id ∈ env.protectedNodes) ∧
      launchConfigOk env.launchEnv w.tags = true then
    keepNode st w.tags
  else if idleCheck env.lastUsed (now - 60 * env.idle_timeout_minutes) w.ip then
    scheduleTermination st w.id "idle"
  else if launchConfigOk env.launchEnv w.tags = false then
    scheduleTermination st w.id "outdated"
  else
    let st1 := keepNode st w.tags
    { st1 with eligible := st1.eligible ++ [w.id] }

/-- The result of `terminate_nodes_to_enforce_config_constraints`:
the final `nodes_to_terminate` (with reasons), the
`nodes_we_could_terminate` list and whether the inconsistency warning of
lines 393-398 was logged. -/
structure TermOutcome where
  scheduled : List (String × String)
  eligible : List String
  warned : Bool

/-- Lines 388-409: the `max_workers` surplus step run after the worker
loop.  `num_workers` is `len(self.non_terminated_nodes.worker_ids)`;
Python's `lst[-k:]` for `0 < k ≤ len(lst)` is `drop (len - k)`. -/
def aftermath (global_max_workers : Nat) (num_workers : Nat) (st : TermState) :
    TermOutcome :=
  let num_extra : Int :=
    (num_workers : Int) - st.scheduled.length - global_max_workers
  let warned := decide (num_extra > (st.eligible.length : Int))
  let num_extra2 : Int :=
    if num_extra > (st.eligible.length : Int) then (st.eligible.length : Int)
    else num_extra
  let extra :=
    if num_extra2 > 0 then st.eligible.drop (st.eligible.length - num_extra2.toNat)
    else []
  { scheduled := st.scheduled ++ extra.map (fun node_id => (node_id, "max workers")),
    eligible := st.eligible,
    warned := warned }

/-- The initial loop state: `node_type_counts = defaultdict(int)`,
`self.nodes_to_terminate = []` (reset by the previous
`terminate_scheduled_nodes`), `nodes_we_could_terminate = []`. -/
def initTermState : TermState :=
  { counts := fun _ => 0, scheduled := [], eligible := [] }

/-- `StandardClusterScaler.terminate_nodes_to_enforce_config_constraints`:
sort workers most-recently-used first, run the classification loop, then
the `max_workers` surplus step.  (The concluding
`terminate_scheduled_nodes()` call then terminates `scheduled` in one
provider batch; it does not change which nodes are scheduled or why.) -/
def terminateNodesToEnforceConfigConstraints (env : TickEnv) (now : ℚ)
    (workers : List Worker) : TermOutcome :=
  let sorted_node_ids := sortBasedOnLastUsed env.lastUsed workers
  let st := sorted_node_ids.foldl (processWorker env now) initTermState
  aftermath env.global_max_workers workers.length st

/-! ### Load metrics, heartbeats, `terminate_unhealthy_nodes`
(lines 844-879) -/

/-- The slice of `LoadMetrics` the scaler reads and writes here
(`load_metrics.py` is outside this source tree). -/
structure LoadMetricsState where
  last_heartbeat_time_by_ip : List (String × ℚ)
  last_used_time_by_ip : List (String × ℚ)
deriving DecidableEq

/-- Modelled from the spec: `load_metrics.mark_active(ip)` bumps the ip's
last-heartbeat and last-used times to `now` (`load_metrics.py` is outside
this source tree; spec §4.G). -/
def markActive (lm : LoadMetricsState) (ip : String) (now : ℚ) :
    LoadMetricsState :=
  { last_heartbeat_time_by_ip := setKey lm.last_heartbeat_time_by_ip ip now,
    last_used_time_by_ip := setKey lm.last_used_time_by_ip ip now }

/-- `StandardClusterScaler.heartbeat_on_time` (lines 844-856), with the ip
already looked up (`key = provider.internal_ip(node_id)`) and the constant
`CLOUDTIK_HEARTBEAT_TIMEOUT_S` (from `constants.py`, outside this source
tree; spec §6 gives default 30) as the parameter `timeout`. -/
def heartbeatOnTime (lm : LoadMetricsState) (ip : String) (now timeout : ℚ) :
    Bool :=
  match lm.last_heartbeat_time_by_ip.lookup ip with
  | some last_heartbeat_time => decide (now - last_heartbeat_time < timeout)
  | none => false

/-- The body of the `for node_id in ... worker_ids` loop of
`terminate_unhealthy_nodes` (lines 862-878).  The state is the load-metrics
state together with the `nodes_to_terminate` list (with reasons).  Reading
`node_tags(node_id)[CLOUDTIK_TAG_NODE_STATUS]` raises `KeyError` when the
status tag is missing, hence `Except`. -/
def terminateUnhealthyStep (now timeout : ℚ)
    (st : LoadMetricsState × List (String × String)) (w : Worker) :
    Except String (LoadMetricsState × List (String × String)) :=
  match w.tags.status with
  | none => Except.error "KeyError: cloudtik-node-status"
  | some node_status =>
    if ¬ node_status = STATUS_UP_TO_DATE then Except.ok st
    else
      let lm :=
        if (st.1.last_heartbeat_time_by_ip.lookup w.ip).isNone then
          markActive st.1 w.ip now
        else st.1
      if heartbeatOnTime lm w.ip now timeout then Except.ok (lm, st.2)
      else Except.ok (lm, st.2 ++ [(w.id, "lost contact with node")])

/-- `StandardClusterScaler.terminate_unhealthy_nodes` (lines 858-879)
up to the concluding `terminate_scheduled_nodes()` call (which terminates
the scheduled list in one provider batch without changing which nodes were
scheduled or why). -/
def terminateUnhealthyNodes (now timeout : ℚ) (lm : LoadMetricsState)
    (workers : List Worker) :
    Except String (LoadMetricsState × List (String × String)) :=
  workers.foldlM (terminateUnhealthyStep now timeout) (lm, [])

/-! ### Updaters: `process_completed_updates` (lines 488-534),
`can_update` (lines 1018-1029), spawning (lines 980-1016, 885-921) -/

/-- The fields of a `NodeUpdaterThread` the scaler reads: `is_alive()`,
`exitcode` and `for_recovery` (the thread itself lives in
`node_updater.py`, outside this source tree; only these observations are
consumed here).  `update_time` is only fed to a metrics histogram and is
omitted. -/
structure Updater where
  alive : Bool
  exitcode : Int
  for_recovery : Bool
deriving DecidableEq

/-- The scaler state touched by the updater-management code.  `updaters` is
the `node_id → NodeUpdaterThread` dict; dict assignment is modelled as
append (the theorems show the key being assigned is never already present,
so this agrees with the dict), deletion as `eraseKey`.  `tracked` is the
set of node ids in `node_tracker` (`node_tracker.py` is outside this source
tree; only `track`/`untrack` membership is consumed).  `scheduled` is
`nodes_to_terminate` with reasons, `terminated_batches` records each
`provider.terminate_nodes(ids)` call, and `termination_log` is a ghost
history of every `schedule_node_termination` call (never cleared). -/
structure ScalerState where
  updaters : List (String × Updater)
  num_successful_updates : String → Nat
  num_failed_updates : String → Nat
  successful_updates_total : Nat
  failed_updates_total : Nat
  successful_recoveries : Nat
  failed_recoveries : Nat
  lm : LoadMetricsState
  tracked : List String
  worker_ids : List String
  all_node_ids : List String
  scheduled : List (String × String)
  terminated_batches : List (List String)
  termination_log : List (String × String)

/-- `schedule_node_termination` (lines 413-430) on the scaler state. -/
def scheduleNodeTermination (st : ScalerState) (node_id reason : String) :
    ScalerState :=
  { st with scheduled := st.scheduled ++ [(node_id, reason)],
            termination_log := st.termination_log ++ [(node_id, reason)] }

/-- `terminate_scheduled_nodes` (lines 432-449): if anything is scheduled,
drain (a no-op), terminate the batch through the provider, untrack each
node, remove them from the in-memory node lists and clear the schedule. -/
def terminateScheduledNodes (st : ScalerState) : ScalerState :=
  if st.scheduled.isEmpty then st
  else
    let ids := st.scheduled.map Prod.fst
    { st with
      terminated_batches := st.terminated_batches ++ [ids],
      tracked := st.tracked.filter (fun x => decide (x ∉ ids)),
      worker_ids := st.worker_ids.filter (fun x => decide (x ∉ ids)),
      all_node_ids := st.all_node_ids.filter (fun x => decide (x ∉ ids)),
      scheduled := [] }

/-- The body of the `for node_id in completed_nodes` loop of
`process_completed_updates` (lines 497-518).  The accumulator carries the
scaler state and the local `failed_nodes` list.  `ipOf` is
`provider.internal_ip`. -/
def processOneCompleted (ipOf : String → String) (now : ℚ)
    (acc : ScalerState × List String) (p : String × Updater) :
    ScalerState × List String :=
  let st := acc.1
  let failed_nodes := acc.2
  let node_id := p.1
  let updater := p.2
  if updater.exitcode = 0 then
    ({ st with
        num_successful_updates := fun n =>
          if n = node_id then st.num_successful_updates n + 1
          else st.num_successful_updates n,
        successful_updates_total := st.successful_updates_total + 1,
        successful_recoveries :=
          if updater.for_recovery then st.successful_recoveries + 1
          else st.successful_recoveries,
        lm := markActive st.lm (ipOf node_id) now,
        updaters := eraseKey st.updaters node_id },
     failed_nodes)
  else
    ({ st with
        num_failed_updates := fun n =>
          if n = node_id then st.num_failed_updates n + 1
          else st.num_failed_updates n,
        failed_updates_total := st.failed_updates_total + 1,
        failed_recoveries :=
          if updater.for_recovery then st.failed_recoveries + 1
          else st.failed_recoveries,
        tracked := st.tracked.filter (fun x => decide (x ≠ node_id)),
        updaters := eraseKey st.updaters node_id },
     failed_nodes ++ [node_id])

/-- The `completed_nodes` collection of lines 491-494: updaters that are no
longer alive (the source collects the ids and re-reads the dict; with the
ids distinct this is the same as iterating the filtered entries). -/
def completedUpdaters (st : ScalerState) : List (String × Updater) :=
  st.updaters.filter (fun p => !p.2.alive)

/-- `StandardClusterScaler.process_completed_updates`. -/
def processCompletedUpdates (ipOf : String → String) (now : ℚ)
    (st : ScalerState) : ScalerState :=
  let completed_nodes := completedUpdaters st
  if completed_nodes.isEmpty then st
  else
    let r := completed_nodes.foldl (processOneCompleted ipOf now) (st, [])
    let st1 := r.1
    let failed_nodes := r.2
    if failed_nodes.isEmpty then st1
    else
      let st2 := failed_nodes.foldl
        (fun s node_id =>
          if node_id ∈ s.worker_ids then
            scheduleNodeTermination s node_id "launch failed"
          else s) st1
      terminateScheduledNodes st2

/-- The configuration inputs of `can_update` and the tick transitions:
`disable_node_updaters`, the launch-config environment, each node's tags
(`provider.node_tags`), each node's ip, and the heartbeat timeout used by
the recovery path. -/
structure UpdEnv where
  disable_node_updaters : Bool
  launchEnv : LaunchEnv
  tags : String → Tags
  ipOf : String → String
  heartbeat_timeout : ℚ

/-- `StandardClusterScaler.can_update` (lines 1018-1029). -/
def canUpdate (env : UpdEnv) (st : ScalerState) (node_id : String) : Bool :=
  if env.disable_node_updaters then false
  else if (st.updaters.lookup node_id).isSome then false
  else if launchConfigOk env.launchEnv (env.tags node_id) = false then false
  else if st.num_failed_updates node_id > 0 then false
  else true

/-- `node_tracker.track(id, ip, type)`: LRU move-to-front on the tracked
ids (`node_tracker.py` is outside this source tree; only membership is
consumed here). -/
def trackNode (tracked : List String) (node_id : String) : List String :=
  node_id :: tracked.filter (fun x => decide (x ≠ node_id))

/-- One transition of the scaler as far as the updater map is concerned.

* `spawn`: `update_nodes → should_update → can_update` guards the spawn,
  then `spawn_updater` tracks the node, starts the thread and stores it
  (lines 952-953, 980-1016).  Storing is modelled as append; the C4 theorem
  shows the key is never already present.
* `recover`: `recover_if_needed` (lines 885-921) requires `can_update` and
  a missed heartbeat, then stores a recovery updater the same way.
* `finish`: a running updater thread finishes (external to the scaler
  thread); only its `alive` observation changes.
* `completed`: the scaler runs `process_completed_updates`.
* `frame`: any other scaler activity; it does not touch `self.updaters`
  (the only writes to `self.updaters` in the source are the two spawn
  paths and the deletion in `process_completed_updates`). -/
inductive ScalerStep (env : UpdEnv) : ScalerState → ScalerState → Prop where
  | spawn (st : ScalerState) (node_id : String) (u : Updater)
      (hcan : canUpdate env st node_id = true) :
      ScalerStep env st
        { st with updaters := st.updaters ++ [(node_id, u)],
                  tracked := trackNode st.tracked node_id }
  | recover (st : ScalerState) (node_id : String) (u : Updater) (now : ℚ)
      (hcan : canUpdate env st node_id = true)
      (hhb : heartbeatOnTime st.lm (env.ipOf node_id) now env.heartbeat_timeout
               = false) :
      ScalerStep env st
        { st with updaters := st.updaters ++ [(node_id, u)] }
  | finish (st : ScalerState) (node_id : String) (u : Updater)
      (pre post : List (String × Updater))
      (hsplit : st.updaters = pre ++ (node_id, u) :: post) :
      ScalerStep env st
        { st with updaters := pre ++ (node_id, { u with alive := false }) :: post }
  | completed (st : ScalerState) (now : ℚ) :
      ScalerStep env st (processCompletedUpdates env.ipOf now st)
  | frame (st st' : ScalerState) (hupd : st'.updaters = st.updaters) :
      ScalerStep env st st'

/-- Reachability from a state by scaler transitions. -/
def ScalerReachable (env : UpdEnv) (s0 s : ScalerState) : Prop :=
  Relation.ReflTransGen (ScalerStep env) s0 s

/-! ### `reset` (lines 739-803) -/

/-- The configuration document is opaque to the fragment of `reset` under
study; only equality between the old and the new document matters. -/
def Config := String

instance : DecidableEq Config := inferInstanceAs (DecidableEq String)

/-- The scaler state read and written by `reset`: the current config, the
derived hashes, and the two exception counters
(`prometheus_metrics.config_validation_exceptions` and
`prometheus_metrics.reset_exceptions`). -/
structure ResetState where
  config : Config
  runtime_hash : String
  file_mounts_contents_hash : Option String
  config_validation_exceptions : Nat
  reset_exceptions : Nat
deriving DecidableEq

/-- `StandardClusterScaler.reset` with `errors_fatal=False` (the tick
path).  `cfgReader` is the outcome of `self.config_reader()` (`.error`
when reading raises), `validateOk` abstracts `validate_config` (`false`
when it raises), `syncOf` reads `file_mounts_sync_continuously` from a
config, and `hashRuntimeConf` abstracts `hash_runtime_conf` from
`utils.py` (outside this source tree), a pure function of the new config
and the sync flag of the old one.

The source catches a `validate_config` failure in an inner `try`, bumps
the validation-exception counter, logs at debug level, and then falls
through to `self.config = new_config`: the new config is adopted whether
or not it validated.  Only an exception outside that inner `try` (config
reading, hashing, provider or scheduler construction) reaches the outer
handler, which bumps `reset_exceptions` and leaves the state unchanged.
The provider / scheduler reconfiguration performed from the adopted config
is not modelled. -/
def resetNonFatal (cfgReader : Except String Config)
    (validateOk : Config → Bool) (syncOf : Config → Bool)
    (hashRuntimeConf : Config → Bool → String × Option String)
    (st : ResetState) : ResetState :=
  let sync_continuously := syncOf st.config
  match cfgReader with
  | Except.error _ => { st with reset_exceptions := st.reset_exceptions + 1 }
  | Except.ok new_config =>
    let st1 :=
      if new_config ≠ st.config ∧ validateOk new_config = false then
        { st with config_validation_exceptions :=
            st.config_validation_exceptions + 1 }
      else st
    let h := hashRuntimeConf new_config sync_continuously
    { st1 with
      config := new_config,
      runtime_hash := h.1,
      file_mounts_contents_hash := h.2 }

/-! ### `NonTerminatedNodes.__init__` (lines 70-91) and the classification
loop of `summary` (lines 1058-1104) -/

/-- The result of `NonTerminatedNodes.__init__`. -/
structure NonTerminatedNodes where
  all_node_ids : List String
  worker_ids : List String
  head_id : Option String
deriving DecidableEq

/-- The body of the `for node in self.all_node_ids` loop of
`NonTerminatedNodes.__init__` (lines 82-87).  Line 83 indexes
`provider.node_tags(node)[CLOUDTIK_TAG_NODE_KIND]`, which raises
`KeyError` when the kind tag is missing, hence `Except`. -/
def ntnStep (ntn : NonTerminatedNodes) (p : String × Tags) :
    Except String NonTerminatedNodes :=
  match p.2.kind with
  | none => Except.error "KeyError: cloudtik-node-kind"
  | some node_kind =>
    if node_kind = NODE_KIND_WORKER then
      Except.ok { ntn with worker_ids := ntn.worker_ids ++ [p.1] }
    else if node_kind = NODE_KIND_HEAD then
      Except.ok { ntn with head_id := some p.1 }
    else Except.ok ntn

/-- `NonTerminatedNodes.__init__`: `provider` lists the non-terminated
nodes (`provider.non_terminated_nodes({})`) with their tag
dictionaries. -/
def nonTerminatedNodesInit (provider : List (String × Tags)) :
    Except String NonTerminatedNodes :=
  provider.foldlM ntnStep
    { all_node_ids := provider.map Prod.fst, worker_ids := [], head_id := none }

/-- The accumulator of the classification loop in `summary`. -/
structure SummaryAcc where
  active_nodes : List (String × Nat)
  pending_nodes : List (String × String × String)
  non_failed : List String
deriving DecidableEq

/-- Bump a `Counter` entry (`active_nodes[node_type] += 1`). -/
def bumpCounter (c : List (String × Nat)) (k : String) : List (String × Nat) :=
  match c.lookup k with
  | some n => (k, n + 1) :: c.filter (fun p => decide (p.1 ≠ k))
  | none => (k, 1) :: c

/-- The body of the `for node_id in ... all_node_ids` loop of `summary`
(lines 1074-1102): skip nodes missing any of the kind / type / status
tags, skip unmanaged nodes, then classify as active or pending.
`isActive` is `load_metrics.is_active(ip)` (`load_metrics.py` is outside
this source tree); the node is given as `(id, ip, tags)`. -/
def summaryStep (isActive : String → Bool) (acc : SummaryAcc)
    (node : String × String × Tags) : SummaryAcc :=
  let node_id := node.1
  let ip := node.2.1
  let tags := node.2.2
  match tags.kind, tags.user_node_type, tags.status with
  | some kind, some node_type, some status =>
    if kind = NODE_KIND_UNMANAGED then acc
    else if isActive ip then
      { acc with active_nodes := bumpCounter acc.active_nodes node_type,
                 non_failed := acc.non_failed ++ [node_id] }
    else if ¬ (status = STATUS_UP_TO_DATE ∨ status = STATUS_UPDATE_FAILED) then
      { acc with pending_nodes := acc.pending_nodes ++ [(ip, node_type, status)],
                 non_failed := acc.non_failed ++ [node_id] }
    else acc
  | _, _, _ => acc

/-- The classification loop of `summary` over all non-terminated nodes. -/
def summaryClassify (isActive : String → Bool)
    (nodes : List (String × String × Tags)) : SummaryAcc :=
  nodes.foldl (summaryStep isActive) ⟨[], [], []⟩

/-! ## Helper lemmas -/

theorem lookup_eq_none_iff {β : Type} (m : List (String × β)) (k : String) :
    m.lookup k = none ↔ k ∉ m.map Prod.fst := by
  induction m with
  | nil => simp
  | cons p t ih =>
    rcases p with ⟨a, b⟩
    by_cases hak : a = k
    · subst hak
      simp [List.lookup]
    · simp [List.lookup, beq_false_of_ne (Ne.symm hak), ih, hak, Ne.symm hak]

theorem lookup_isSome_of_mem_keys {β : Type} {m : List (String × β)}
    {k : String} (h : k ∈ m.map Prod.fst) : (m.lookup k).isSome := by
  rcases ho : m.lookup k with _ | v
  · exact absurd ((lookup_eq_none_iff m k).mp ho) (by simp [h])
  · simp

theorem not_mem_keys_of_lookup_eq_none {β : Type} {m : List (String × β)}
    {k : String} (h : m.lookup k = none) : k ∉ m.map Prod.fst :=
  (lookup_eq_none_iff m k).mp h

/-! ## C2 -/

/-- C2: for every worker whose tags contain `user_node_type`,
`_keep_worker_of_node_type` returns *terminate* — with a reason naming
`available_node_types` or `"max_workers_per_type"` — iff the worker's type
is absent from `available_node_types` or counting the worker would make its
type's kept-count exceed that type's `max_workers`; it returns *keep* iff
the incremented count is at most `min(min_workers, max_workers)` of its
type; and it returns *decide_later* otherwise. -/
theorem C2_keep_worker_classification
    (ant : List (String × NodeTypeSpec)) (counts : String → Nat) (tags : Tags)
    (node_type : String) (h : tags.user_node_type = some node_type) :
    (((keepWorkerOfNodeType ant tags counts).1 = KeepOrTerminate.terminate) ↔
      (ant.lookup node_type = none ∨
        counts node_type + 1 >
          ((ant.lookup node_type).bind NodeTypeSpec.max_workers).getD 0)) ∧
    (((keepWorkerOfNodeType ant tags counts).1 = KeepOrTerminate.terminate) →
      ((keepWorkerOfNodeType ant tags counts).2 =
          some ("not in available_node_types: " ++ toString (ant.map Prod.fst)) ∨
        (keepWorkerOfNodeType ant tags counts).2 = some "max_workers_per_type")) ∧
    (((keepWorkerOfNodeType ant tags counts).1 = KeepOrTerminate.keep) ↔
      counts node_type + 1 ≤
        min (((ant.lookup node_type).bind NodeTypeSpec.min_workers).getD 0)
            (((ant.lookup node_type).bind NodeTypeSpec.max_workers).getD 0)) ∧
    (((keepWorkerOfNodeType ant tags counts).1 = KeepOrTerminate.decide_later) ↔
      ((ant.lookup node_type).isSome = true ∧
        counts node_type + 1 ≤
          ((ant.lookup node_type).bind NodeTypeSpec.max_workers).getD 0 ∧
        min (((ant.lookup node_type).bind NodeTypeSpec.min_workers).getD 0)
            (((ant.lookup node_type).bind NodeTypeSpec.max_workers).getD 0) <
          counts node_type + 1)) := by
  rcases hlk : ant.lookup node_type with _ | spec <;>
    simp only [keepWorkerOfNodeType, h, hlk, Option.none_bind, Option.some_bind,
      Option.getD_none, Option.isNone_none, Option.isNone_some, Option.isSome_none,
      Option.isSome_some]
  · refine ⟨?_, ?_, ?_, ?_⟩ <;> simp
  · split_ifs with hif1 hif2 hif3 <;>
      refine ⟨?_, ?_, ?_, ?_⟩ <;> simp_all

/-- Witness for C2 at a concrete input: one available type `"w"` with
`min_workers = 1`, `max_workers = 2`, zero counted so far — the
incremented count 1 is at most `min 1 2`, so the keep-iff direction of the
C2 theorem yields *keep*. -/
theorem C2_keep_worker_classification_witness :
    (keepWorkerOfNodeType [("w", ⟨some 1, some 2⟩)]
      ⟨some "worker", some "w", none, none⟩ (fun _ => 0)).1 =
        KeepOrTerminate.keep :=
  ((C2_keep_worker_classification [("w", ⟨some 1, some 2⟩)] (fun _ => 0)
      ⟨some "worker", some "w", none, none⟩ "w" rfl).2.2.1).mpr (by decide)

/-! ## C1 -/

/-- C1 counterexample: the previous config is `"old"`, the reader returns
`"new"`, and validation fails on it (`validateOk` is constantly false).
The claim says `self.config` is left unchanged by the reload; in fact
`reset` logs the validation failure (the counter is bumped) and then still
executes `self.config = new_config`, so the state ends with the new
config. -/
theorem C1_reset_adopts_invalid_config_counterexample :
    (resetNonFatal (Except.ok "new") (fun _ => false) (fun _ => false)
        (fun _ _ => ("h", none))
        { config := "old", runtime_hash := "r0", file_mounts_contents_hash := none,
          config_validation_exceptions := 0, reset_exceptions := 0 }).config =
      "new" ∧
    (resetNonFatal (Except.ok "new") (fun _ => false) (fun _ => false)
        (fun _ _ => ("h", none))
        { config := "old", runtime_hash := "r0", file_mounts_contents_hash := none,
          config_validation_exceptions := 0, reset_exceptions := 0
          }).config_validation_exceptions = 1 ∧
    ("new" : Config) ≠ ("old" : Config) := by
  refine ⟨rfl, rfl, ?_⟩
  intro hc
  exact absurd hc (by decide)

/-- C1 as amended: when the re-read configuration differs from the current
one and fails validation non-fatally, `reset` increments the
validation-failure counter (the failure is logged) and continues — but it
*adopts* the new configuration: `self.config` is set to the new config and
the hashes are recomputed from it.  The previous config is retained only
when reading the config raises, in which case the reset-exception counter
is incremented instead. -/
theorem C1_reset_validation_failure_behavior
    (validateOk syncOf : Config → Bool)
    (hashRuntimeConf : Config → Bool → String × Option String)
    (st : ResetState) (new_config : Config)
    (hne : new_config ≠ st.config) (hval : validateOk new_config = false) :
    ((resetNonFatal (Except.ok new_config) validateOk syncOf hashRuntimeConf
        st).config = new_config ∧
      (resetNonFatal (Except.ok new_config) validateOk syncOf hashRuntimeConf
        st).config_validation_exceptions =
        st.config_validation_exceptions + 1 ∧
      (resetNonFatal (Except.ok new_config) validateOk syncOf hashRuntimeConf
        st).runtime_hash = (hashRuntimeConf new_config (syncOf st.config)).1) ∧
    (∀ e : String,
      (resetNonFatal (Except.error e) validateOk syncOf hashRuntimeConf st) =
        { st with reset_exceptions := st.reset_exceptions + 1 }) := by
  constructor
  · simp [resetNonFatal, hne, hval]
  · intro e
    simp [resetNonFatal]

/-- Witness for C1 (amended) at a concrete input. -/
theorem C1_reset_validation_failure_behavior_witness :
    ((resetNonFatal (Except.ok ("new" : Config)) (fun _ => false) (fun _ => false)
        (fun _ _ => ("h", none))
        { config := "old", runtime_hash := "r0", file_mounts_contents_hash := none,
          config_validation_exceptions := 3, reset_exceptions := 0 }).config =
        ("new" : Config) ∧
      (resetNonFatal (Except.ok ("new" : Config)) (fun _ => false) (fun _ => false)
        (fun _ _ => ("h", none))
        { config := "old", runtime_hash := "r0", file_mounts_contents_hash := none,
          config_validation_exceptions := 3, reset_exceptions := 0
          }).config_validation_exceptions = 3 + 1 ∧
      (resetNonFatal (Except.ok ("new" : Config)) (fun _ => false) (fun _ => false)
        (fun _ _ => ("h", none))
        { config := "old", runtime_hash := "r0", file_mounts_contents_hash := none,
          config_validation_exceptions := 3, reset_exceptions := 0
          }).runtime_hash =
        ((fun (_ : Config) (_ : Bool) => (("h" : String), (none : Option String)))
          ("new" : Config)
          ((fun (_ : Config) => false) ("old" : Config))).1) ∧
    (∀ e : String,
      (resetNonFatal (Except.error e) (fun _ => false) (fun _ => false)
        (fun _ _ => ("h", none))
        { config := "old", runtime_hash := "r0", file_mounts_contents_hash := none,
          config_validation_exceptions := 3, reset_exceptions := 0 }) =
        { config := "old", runtime_hash := "r0", file_mounts_contents_hash := none,
          config_validation_exceptions := 3, reset_exceptions := 0 + 1 }) :=
  C1_reset_validation_failure_behavior (fun _ => false) (fun _ => false)
    (fun _ _ => ("h", none))
    { config := "old", runtime_hash := "r0", file_mounts_contents_hash := none,
      config_validation_exceptions := 3, reset_exceptions := 0 }
    ("new" : Config) (by intro hc; exact absurd hc (by decide)) rfl

/-! ## C5 -/

theorem lookup_setKey_self (m : List (String × ℚ)) (k : String) (v : ℚ) :
    (setKey m k v).lookup k = some v := by
  simp [setKey, List.lookup]

/-- C5: in `terminate_unhealthy_nodes` (the path taken when node updaters
are disabled), processing a worker does the following.  A worker whose
status tag is up-to-date and whose ip has no recorded heartbeat is marked
active (its last-heartbeat and last-used times are bumped to `now`) and
kept for this tick.  A worker with status up-to-date whose last heartbeat
is `heartbeat_timeout_s` or more in the past is scheduled for termination
with reason `"lost contact with node"`.  A worker whose status tag is not
up-to-date is left untouched, so it is never scheduled for termination by
this routine, which is the fold of the per-worker step. -/
theorem C5_terminate_unhealthy_nodes (now timeout : ℚ) (htimeout : 0 < timeout) :
    (∀ (st : LoadMetricsState × List (String × String)) (w : Worker),
      w.tags.status = some STATUS_UP_TO_DATE →
      st.1.last_heartbeat_time_by_ip.lookup w.ip = none →
      terminateUnhealthyStep now timeout st w =
        Except.ok (markActive st.1 w.ip now, st.2)) ∧
    (∀ (st : LoadMetricsState × List (String × String)) (w : Worker) (t : ℚ),
      w.tags.status = some STATUS_UP_TO_DATE →
      st.1.last_heartbeat_time_by_ip.lookup w.ip = some t →
      timeout ≤ now - t →
      terminateUnhealthyStep now timeout st w =
        Except.ok (st.1, st.2 ++ [(w.id, "lost contact with node")])) ∧
    (∀ (st : LoadMetricsState × List (String × String)) (w : Worker) (s : String),
      w.tags.status = some s → s ≠ STATUS_UP_TO_DATE →
      terminateUnhealthyStep now timeout st w = Except.ok st) ∧
    (∀ (lm : LoadMetricsState) (workers : List Worker),
      terminateUnhealthyNodes now timeout lm workers =
        workers.foldlM (terminateUnhealthyStep now timeout) (lm, [])) := by
  refine ⟨?_, ?_, ?_, fun lm workers => rfl⟩
  · intro st w hstatus hlk
    have hhb : heartbeatOnTime (markActive st.1 w.ip now) w.ip now timeout = true := by
      simp [heartbeatOnTime, markActive, lookup_setKey_self, htimeout]
    simp [terminateUnhealthyStep, hstatus, hlk, hhb]
  · intro st w t hstatus hlk hlate
    have hhb : heartbeatOnTime st.1 w.ip now timeout = false := by
      simp only [heartbeatOnTime, hlk, decide_eq_false_iff_not, not_lt]
      linarith
    simp [terminateUnhealthyStep, hstatus, hlk, hhb]
  · intro st w s hstatus hs
    simp [terminateUnhealthyStep, hstatus, hs]

/-- Witness for C5 at a concrete input: an up-to-date worker with no
recorded heartbeat is marked active and not scheduled. -/
theorem C5_terminate_unhealthy_nodes_witness :
    terminateUnhealthyStep 100 30 (⟨[], []⟩, [])
        ⟨"n1", "ip1", ⟨some "worker", some "w", some "up-to-date", none⟩⟩ =
      Except.ok (markActive ⟨[], []⟩ "ip1" 100, []) :=
  (C5_terminate_unhealthy_nodes 100 30 (by norm_num)).1 (⟨[], []⟩, [])
    ⟨"n1", "ip1", ⟨some "worker", some "w", some "up-to-date", none⟩⟩ rfl rfl

/-! ## C8 -/

theorem except_pure {α : Type} (a : α) :
    (pure a : Except String α) = Except.ok a := rfl

theorem except_ok_bind {α β : Type} (a : α) (f : α → Except String β) :
    (Except.ok a >>= f) = f a := rfl

theorem except_error_bind {α β : Type} (e : String) (f : α → Except String β) :
    ((Except.error e : Except String α) >>= f) = Except.error e := rfl

theorem ntnFold_ok_iff (l : List (String × Tags)) (acc : NonTerminatedNodes) :
    (∃ r, l.foldlM ntnStep acc = Except.ok r) ↔ ∀ p ∈ l, p.2.kind ≠ none := by
  induction l generalizing acc with
  | nil => simp [except_pure]
  | cons p t ih =>
    rcases hk : p.2.kind with _ | k
    · simp [List.foldlM_cons, ntnStep, hk, except_error_bind]
    · by_cases hw : k = NODE_KIND_WORKER
      · simp [List.foldlM_cons, ntnStep, hk, hw, except_ok_bind, ih]
      · by_cases hh : k = NODE_KIND_HEAD
        · simp [List.foldlM_cons, ntnStep, hk, hw, hh, except_ok_bind, ih,
            NODE_KIND_HEAD, NODE_KIND_WORKER]
        · simp [List.foldlM_cons, ntnStep, hk, hw, hh, except_ok_bind, ih]

theorem ntnFold_classifies (l : List (String × Tags)) (acc r : NonTerminatedNodes)
    (h : l.foldlM ntnStep acc = Except.ok r) :
    r.worker_ids = acc.worker_ids ++
        (l.filter (fun p => decide (p.2.kind = some NODE_KIND_WORKER))).map Prod.fst ∧
      r.all_node_ids = acc.all_node_ids := by
  induction l generalizing acc with
  | nil =>
    simp only [List.foldlM_nil] at h
    cases h
    simp
  | cons p t ih =>
    rcases hk : p.2.kind with _ | k
    · simp [List.foldlM_cons, ntnStep, hk, except_error_bind] at h
    · by_cases hw : k = NODE_KIND_WORKER
      · subst hw
        simp only [List.foldlM_cons, ntnStep, hk, if_pos rfl, except_ok_bind] at h
        rcases ih _ h with ⟨h1, h2⟩
        constructor
        · rw [h1]
          simp [hk]
        · exact h2
      · by_cases hh : k = NODE_KIND_HEAD
        · simp only [List.foldlM_cons, ntnStep, hk, if_neg hw, if_pos hh,
            except_ok_bind] at h
          rcases ih _ h with ⟨h1, h2⟩
          constructor
          · rw [h1]
            simp [hk, hw]
          · exact h2
        · simp only [List.foldlM_cons, ntnStep, hk, if_neg hw, if_neg hh,
            except_ok_bind] at h
          rcases ih _ h with ⟨h1, h2⟩
          constructor
          · rw [h1]
            simp [hk, hw]
          · exact h2

/-- C8 counterexample: a provider state with one node missing the kind tag
(and one fully tagged worker).  The claim says constructing
`NonTerminatedNodes` from such a state succeeds; in fact line 83 raises
`KeyError`, so the whole tick fails rather than skipping the node. -/
theorem C8_missing_kind_tag_counterexample :
    ¬ ∃ r, nonTerminatedNodesInit
        [("n1", ⟨none, some "w", some "uninitialized", none⟩),
         ("n2", ⟨some "worker", some "w", some "up-to-date", none⟩)] =
      Except.ok r := by
  rintro ⟨r, hr⟩
  have hfail : nonTerminatedNodesInit
      [("n1", ⟨none, some "w", some "uninitialized", none⟩),
       ("n2", ⟨some "worker", some "w", some "up-to-date", none⟩)] =
      Except.error "KeyError: cloudtik-node-kind" := rfl
  rw [hfail] at hr
  exact Except.noConfusion hr

/-- C8 as amended: `NonTerminatedNodes.__init__` does *not* skip a node
whose tags are missing the kind tag — it raises `KeyError`, so
construction succeeds iff every returned node has the kind tag (a worker's
missing `user_node_type` does not affect construction, which never reads
that tag).  On success the workers are exactly the nodes tagged with kind
`worker`, in order, and `all_node_ids` lists every node.  The
classification loop of `summary`, by contrast, does skip any node missing
the kind, type or status tag, and classifies fully tagged nodes (an
unmanaged node is skipped; an active one is counted by type and marked
non-failed). -/
theorem C8_partial_tags_behavior :
    (∀ provider : List (String × Tags),
      (∃ r, nonTerminatedNodesInit provider = Except.ok r) ↔
        ∀ p ∈ provider, p.2.kind ≠ none) ∧
    (∀ (provider : List (String × Tags)) (r : NonTerminatedNodes),
      nonTerminatedNodesInit provider = Except.ok r →
        r.worker_ids =
            (provider.filter
              (fun p => decide (p.2.kind = some NODE_KIND_WORKER))).map Prod.fst ∧
          r.all_node_ids = provider.map Prod.fst) ∧
    (∀ (isActive : String → Bool) (acc : SummaryAcc)
        (node : String × String × Tags),
      (node.2.2.kind = none ∨ node.2.2.user_node_type = none ∨
        node.2.2.status = none) →
      summaryStep isActive acc node = acc) ∧
    (∀ (isActive : String → Bool) (acc : SummaryAcc) (node_id ip : String)
        (tags : Tags) (kind node_type status : String),
      tags.kind = some kind → tags.user_node_type = some node_type →
      tags.status = some status → kind ≠ NODE_KIND_UNMANAGED →
      isActive ip = true →
      summaryStep isActive acc (node_id, ip, tags) =
        { acc with active_nodes := bumpCounter acc.active_nodes node_type,
                   non_failed := acc.non_failed ++ [node_id] }) := by
  refine ⟨?_, ?_, ?_, ?_⟩
  · intro provider
    exact ntnFold_ok_iff provider _
  · intro provider r h
    have := ntnFold_classifies provider _ r h
    simpa using this
  · intro isActive acc node hmiss
    rcases hk : node.2.2.kind with _ | k
    · simp [summaryStep, hk]
    · rcases ht : node.2.2.user_node_type with _ | ty
      · simp [summaryStep, hk, ht]
      · rcases hs : node.2.2.status with _ | s
        · simp [summaryStep, hk, ht, hs]
        · rcases hmiss with hmiss | hmiss | hmiss
          · rw [hk] at hmiss
            exact Option.noConfusion hmiss
          · rw [ht] at hmiss
            exact Option.noConfusion hmiss
          · rw [hs] at hmiss
            exact Option.noConfusion hmiss
  · intro isActive acc node_id ip tags kind node_type status hk ht hs hkind hact
    simp [summaryStep, hk, ht, hs, hkind, hact]

/-- Witness for C8 (amended) at concrete inputs: a fully tagged
head-and-worker state constructs successfully, and the summary loop skips
a node missing its status tag. -/
theorem C8_partial_tags_behavior_witness :
    ((∃ r, nonTerminatedNodesInit
        [("h1", ⟨some "head", none, some "up-to-date", none⟩),
         ("n2", ⟨some "worker", some "w", some "up-to-date", none⟩)] =
        Except.ok r) ↔
      ∀ p ∈ [(("h1" : String),
               (⟨some "head", none, some "up-to-date", none⟩ : Tags)),
             ("n2", ⟨some "worker", some "w", some "up-to-date", none⟩)],
        p.2.kind ≠ none) ∧
    summaryStep (fun _ => true) ⟨[], [], []⟩
        ("n3", "ip3", ⟨some "worker", some "w", none, none⟩) =
      (⟨[], [], []⟩ : SummaryAcc) :=
  ⟨C8_partial_tags_behavior.1
      [("h1", ⟨some "head", none, some "up-to-date", none⟩),
       ("n2", ⟨some "worker", some "w", some "up-to-date", none⟩)],
    C8_partial_tags_behavior.2.2.1 (fun _ => true) ⟨[], [], []⟩
      ("n3", "ip3", ⟨some "worker", some "w", none, none⟩)
      (Or.inr (Or.inr rfl))⟩

/-! ## C7 -/

theorem mem_of_lookup_eq_some {β : Type} {m : List (String × β)} {k : String}
    {v : β} (h : m.lookup k = some v) : (k, v) ∈ m := by
  induction m with
  | nil => simp [List.lookup] at h
  | cons p t ih =>
    rcases p with ⟨a, b⟩
    by_cases hak : a = k
    · subst hak
      simp [List.lookup] at h
      simp [h]
    · simp [List.lookup, beq_false_of_ne (Ne.symm hak)] at h
      simp [ih h]

theorem insertByKeyDesc_perm (key : Worker → ℚ) (x : Worker) (l : List Worker) :
    List.Perm (insertByKeyDesc key x l) (x :: l) := by
  induction l with
  | nil => exact List.Perm.refl _
  | cons y ys ih =>
    by_cases h : key x ≤ key y
    · simp only [insertByKeyDesc, if_pos h]
      exact List.Perm.trans (List.Perm.cons y ih) (List.Perm.swap x y ys)
    · simp only [insertByKeyDesc, if_neg h]
      exact List.Perm.refl _

theorem foldl_insertByKeyDesc_perm (key : Worker → ℚ) (l acc : List Worker) :
    List.Perm (l.foldl (fun a x => insertByKeyDesc key x a) acc) (acc ++ l) := by
  induction l generalizing acc with
  | nil => simp
  | cons x xs ih =>
    simp only [List.foldl_cons]
    refine List.Perm.trans (ih (insertByKeyDesc key x acc)) ?_
    refine List.Perm.trans
      (List.Perm.append_right xs (insertByKeyDesc_perm key x acc)) ?_
    exact (List.perm_middle).symm

theorem pairwise_insertByKeyDesc (key : Worker → ℚ) (x : Worker)
    {l : List Worker} (hl : l.Pairwise (fun a b => key b ≤ key a)) :
    (insertByKeyDesc key x l).Pairwise (fun a b => key b ≤ key a) := by
  induction l with
  | nil => simp [insertByKeyDesc]
  | cons y ys ih =>
    rcases List.pairwise_cons.mp hl with ⟨hy, hys⟩
    by_cases h : key x ≤ key y
    · simp only [insertByKeyDesc, if_pos h]
      refine List.pairwise_cons.mpr ⟨?_, ih hys⟩
      intro z hz
      rcases List.mem_cons.mp ((insertByKeyDesc_perm key x ys).mem_iff.mp hz) with
        rfl | hz'
      · exact h
      · exact hy z hz'
    · simp only [insertByKeyDesc, if_neg h]
      push_neg at h
      refine List.pairwise_cons.mpr ⟨?_, hl⟩
      intro z hz
      rcases List.mem_cons.mp hz with rfl | hz'
      · exact le_of_lt h
      · exact le_trans (hy z hz') (le_of_lt h)

theorem foldl_insertByKeyDesc_pairwise (key : Worker → ℚ) (l : List Worker)
    {acc : List Worker} (hacc : acc.Pairwise (fun a b => key b ≤ key a)) :
    (l.foldl (fun a x => insertByKeyDesc key x a) acc).Pairwise
      (fun a b => key b ≤ key a) := by
  induction l generalizing acc with
  | nil => exact hacc
  | cons x xs ih =>
    simp only [List.foldl_cons]
    exact ih (pairwise_insertByKeyDesc key x hacc)

theorem filter_eq_nil_of_forall {α : Type} (p : α → Bool) (l : List α)
    (h : ∀ a ∈ l, p a = false) : l.filter p = [] := by
  induction l with
  | nil => rfl
  | cons a t ih =>
    rw [List.filter_cons, if_neg (by simp [h a (List.mem_cons_self a t)])]
    exact ih (fun a ha => h a (List.mem_cons_of_mem _ ha))

theorem filter_insertByKeyDesc (key : Worker → ℚ) (q : ℚ) (x : Worker)
    {l : List Worker} (hl : l.Pairwise (fun a b => key b ≤ key a)) :
    (insertByKeyDesc key x l).filter (fun w => decide (key w = q)) =
      if key x = q then l.filter (fun w => decide (key w = q)) ++ [x]
      else l.filter (fun w => decide (key w = q)) := by
  induction l with
  | nil => by_cases hq : key x = q <;> simp [insertByKeyDesc, hq]
  | cons y ys ih =>
    rcases List.pairwise_cons.mp hl with ⟨hy, hys⟩
    by_cases h : key x ≤ key y
    · simp only [insertByKeyDesc, if_pos h]
      by_cases hq : key x = q <;> by_cases hyq : key y = q <;>
        simp [List.filter_cons, ih hys, hq, hyq]
    · simp only [insertByKeyDesc, if_neg h]
      push_neg at h
      by_cases hq : key x = q
      · have hnil : (y :: ys).filter (fun w => decide (key w = q)) = [] := by
          refine filter_eq_nil_of_forall _ _ ?_
          intro a ha
          rcases List.mem_cons.mp ha with rfl | ha'
          · simp only [decide_eq_false_iff_not]
            exact ne_of_lt (hq ▸ h)
          · simp only [decide_eq_false_iff_not]
            exact ne_of_lt (lt_of_le_of_lt (hy a ha') (hq ▸ h))
        rw [List.filter_cons, if_pos (by simp [hq]), if_pos hq, hnil]
        rfl
      · rw [List.filter_cons, if_neg (by simp [hq]), if_neg hq]

theorem filter_foldl_insertByKeyDesc (key : Worker → ℚ) (q : ℚ)
    (l : List Worker) {acc : List Worker}
    (hacc : acc.Pairwise (fun a b => key b ≤ key a)) :
    (l.foldl (fun a x => insertByKeyDesc key x a) acc).filter
        (fun w => decide (key w = q)) =
      acc.filter (fun w => decide (key w = q)) ++
        l.filter (fun w => decide (key w = q)) := by
  induction l generalizing acc with
  | nil => simp
  | cons x xs ih =>
    simp only [List.foldl_cons]
    rw [ih (pairwise_insertByKeyDesc key x hacc),
        filter_insertByKeyDesc key q x hacc]
    by_cases hq : key x = q <;> simp [List.filter_cons, hq]

/-- C7 counterexample: three workers whose ips all have the same recorded
last-used time, listed in the order `b, a, c`.  Python's `sorted` is
stable, so the output keeps the input order `b, a, c`; the claim says ties
are broken by node id, which would give `a, b, c` (ascending ids) or
`c, b, a` (descending) — the output is neither. -/
theorem C7_tie_break_counterexample :
    sortBasedOnLastUsed [("ipa", 5), ("ipb", 5), ("ipc", 5)]
        [⟨"b", "ipb", ⟨some "worker", some "w", none, none⟩⟩,
         ⟨"a", "ipa", ⟨some "worker", some "w", none, none⟩⟩,
         ⟨"c", "ipc", ⟨some "worker", some "w", none, none⟩⟩] =
      [⟨"b", "ipb", ⟨some "worker", some "w", none, none⟩⟩,
       ⟨"a", "ipa", ⟨some "worker", some "w", none, none⟩⟩,
       ⟨"c", "ipc", ⟨some "worker", some "w", none, none⟩⟩] ∧
    ([⟨"b", "ipb", ⟨some "worker", some "w", none, none⟩⟩,
      ⟨"a", "ipa", ⟨some "worker", some "w", none, none⟩⟩,
      ⟨"c", "ipc", ⟨some "worker", some "w", none, none⟩⟩] : List Worker) ≠
      [⟨"a", "ipa", ⟨some "worker", some "w", none, none⟩⟩,
       ⟨"b", "ipb", ⟨some "worker", some "w", none, none⟩⟩,
       ⟨"c", "ipc", ⟨some "worker", some "w", none, none⟩⟩] ∧
    ([⟨"b", "ipb", ⟨some "worker", some "w", none, none⟩⟩,
      ⟨"a", "ipa", ⟨some "worker", some "w", none, none⟩⟩,
      ⟨"c", "ipc", ⟨some "worker", some "w", none, none⟩⟩] : List Worker) ≠
      [⟨"c", "ipc", ⟨some "worker", some "w", none, none⟩⟩,
       ⟨"b", "ipb", ⟨some "worker", some "w", none, none⟩⟩,
       ⟨"a", "ipa", ⟨some "worker", some "w", none, none⟩⟩] :=
  ⟨by decide, by decide, by decide⟩

/-- C7 as amended: for every node list and every last-used map whose
recorded times are nonnegative (timestamps), `_sort_based_on_last_used`
returns a permutation of its input whose keys are non-increasing (most
recently used first); a worker with no recorded usage is treated as having
last-used time `-1` and therefore sorts after every worker with a recorded
usage; and ties in the key keep the input order — Python's `sorted` is
stable — rather than being broken by node id. -/
theorem C7_sort_based_on_last_used (last_used : List (String × ℚ))
    (nodes : List Worker) (hpos : ∀ p ∈ last_used, 0 ≤ p.2) :
    List.Perm (sortBasedOnLastUsed last_used nodes) nodes ∧
    (sortBasedOnLastUsed last_used nodes).Pairwise
      (fun a b => lastTimeUsed last_used b ≤ lastTimeUsed last_used a) ∧
    (∀ q : ℚ, (sortBasedOnLastUsed last_used nodes).filter
        (fun w => decide (lastTimeUsed last_used w = q)) =
      nodes.filter (fun w => decide (lastTimeUsed last_used w = q))) ∧
    (sortBasedOnLastUsed last_used nodes).Pairwise
      (fun a b => last_used.lookup a.ip = none → last_used.lookup b.ip = none) := by
  have hperm : List.Perm (sortBasedOnLastUsed last_used nodes) nodes := by
    simpa using foldl_insertByKeyDesc_perm (lastTimeUsed last_used) nodes []
  have hsorted : (sortBasedOnLastUsed last_used nodes).Pairwise
      (fun a b => lastTimeUsed last_used b ≤ lastTimeUsed last_used a) :=
    foldl_insertByKeyDesc_pairwise (lastTimeUsed last_used) nodes
      (List.Pairwise.nil)
  refine ⟨hperm, hsorted, ?_, ?_⟩
  · intro q
    simpa using filter_foldl_insertByKeyDesc (lastTimeUsed last_used) q nodes
      (List.Pairwise.nil)
  · refine hsorted.imp ?_
    intro a b hab hnone
    rcases hb : last_used.lookup b.ip with _ | t
    · rfl
    · exfalso
      have hkb : lastTimeUsed last_used b = t := by
        simp [lastTimeUsed, hb]
      have hka : lastTimeUsed last_used a = -1 := by
        simp [lastTimeUsed, hnone]
      have ht : (0 : ℚ) ≤ t := hpos (b.ip, t) (mem_of_lookup_eq_some hb)
      rw [hkb, hka] at hab
      linarith

/-- Witness for C7 (amended) at a concrete input: two recorded workers and
one unrecorded one. -/
theorem C7_sort_based_on_last_used_witness :
    List.Perm
      (sortBasedOnLastUsed [("ipa", 5), ("ipb", 7)]
        [⟨"a", "ipa", ⟨some "worker", some "w", none, none⟩⟩,
         ⟨"u", "ipu", ⟨some "worker", some "w", none, none⟩⟩,
         ⟨"b", "ipb", ⟨some "worker", some "w", none, none⟩⟩])
      [⟨"a", "ipa", ⟨some "worker", some "w", none, none⟩⟩,
       ⟨"u", "ipu", ⟨some "worker", some "w", none, none⟩⟩,
       ⟨"b", "ipb", ⟨some "worker", some "w", none, none⟩⟩] ∧
    (sortBasedOnLastUsed [("ipa", 5), ("ipb", 7)]
        [⟨"a", "ipa", ⟨some "worker", some "w", none, none⟩⟩,
         ⟨"u", "ipu", ⟨some "worker", some "w", none, none⟩⟩,
         ⟨"b", "ipb", ⟨some "worker", some "w", none, none⟩⟩]).Pairwise
      (fun a b => lastTimeUsed [("ipa", 5), ("ipb", 7)] b ≤
        lastTimeUsed [("ipa", 5), ("ipb", 7)] a) :=
  ⟨(C7_sort_based_on_last_used [("ipa", 5), ("ipb", 7)]
      [⟨"a", "ipa", ⟨some "worker", some "w", none, none⟩⟩,
       ⟨"u", "ipu", ⟨some "worker", some "w", none, none⟩⟩,
       ⟨"b", "ipb", ⟨some "worker", some "w", none, none⟩⟩]
      (by intro p hp; fin_cases hp <;> norm_num)).1,
    (C7_sort_based_on_last_used [("ipa", 5), ("ipb", 7)]
      [⟨"a", "ipa", ⟨some "worker", some "w", none, none⟩⟩,
       ⟨"u", "ipu", ⟨some "worker", some "w", none, none⟩⟩,
       ⟨"b", "ipb", ⟨some "worker", some "w", none, none⟩⟩]
      (by intro p hp; fin_cases hp <;> norm_num)).2.1⟩

/-! ## C3 -/

theorem keepNode_scheduled (st : TermState) (tags : Tags) :
    (keepNode st tags).scheduled = st.scheduled := by
  rcases h : tags.user_node_type with _ | t <;> simp [keepNode, h]

theorem keepNode_eligible (st : TermState) (tags : Tags) :
    (keepNode st tags).eligible = st.eligible := by
  rcases h : tags.user_node_type with _ | t <;> simp [keepNode, h]

theorem idleCheck_true_iff (lastUsed : List (String × ℚ)) (horizon : ℚ)
    (ip : String) :
    idleCheck lastUsed horizon ip = true ↔
      ∃ t, lastUsed.lookup ip = some t ∧ t < horizon := by
  rcases hl : lastUsed.lookup ip with _ | t
  · simp [idleCheck, hl]
  · simp [idleCheck, hl]

theorem processWorker_decide_later_cases (env : TickEnv) (now : ℚ)
    (st : TermState) (w : Worker)
    (hkt : (keepWorkerOfNodeType env.launchEnv.ant w.tags st.counts).1 =
      KeepOrTerminate.decide_later)
    (hprot : w.id ∉ env.protectedNodes) :
    (∀ t : ℚ, env.lastUsed.lookup w.ip = some t →
      t < now - 60 * env.idle_timeout_minutes →
      processWorker env now st w = scheduleTermination st w.id "idle") ∧
    (idleCheck env.lastUsed (now - 60 * env.idle_timeout_minutes) w.ip = false →
      launchConfigOk env.launchEnv w.tags = false →
      processWorker env now st w = scheduleTermination st w.id "outdated") ∧
    (idleCheck env.lastUsed (now - 60 * env.idle_timeout_minutes) w.ip = false →
      launchConfigOk env.launchEnv w.tags = true →
      processWorker env now st w =
        { keepNode st w.tags with
            eligible := (keepNode st w.tags).eligible ++ [w.id] }) := by
  refine ⟨?_, ?_, ?_⟩
  · intro t hl hlt
    have hidle : idleCheck env.lastUsed
        (now - 60 * env.idle_timeout_minutes) w.ip = true := by
      simp [idleCheck, hl, hlt]
    simp only [processWorker, hkt]
    rw [if_neg (by simp), if_neg (by simp [hprot]), if_pos hidle]
  · intro hid hcfg
    simp only [processWorker, hkt]
    rw [if_neg (by simp), if_neg (by simp [hprot]), if_neg (by simp [hid]),
      if_pos hcfg]
  · intro hid hcfg
    simp only [processWorker, hkt]
    rw [if_neg (by simp), if_neg (by simp [hprot]), if_neg (by simp [hid]),
      if_neg (by simp [hcfg])]

theorem aftermath_characterization (gmw nw : Nat) (st : TermState) :
    ((nw : Int) - st.scheduled.length - gmw ≤ 0 →
      (aftermath gmw nw st).scheduled = st.scheduled ∧
        (aftermath gmw nw st).warned = false) ∧
    (0 < (nw : Int) - st.scheduled.length - gmw →
      (nw : Int) - st.scheduled.length - gmw ≤ (st.eligible.length : Int) →
      (aftermath gmw nw st).scheduled =
        st.scheduled ++
          (st.eligible.drop (st.eligible.length -
            ((nw : Int) - st.scheduled.length - gmw).toNat)).map
            (fun node_id => (node_id, "max workers")) ∧
        (aftermath gmw nw st).warned = false) ∧
    ((st.eligible.length : Int) < (nw : Int) - st.scheduled.length - gmw →
      (aftermath gmw nw st).scheduled =
        st.scheduled ++ st.eligible.map (fun node_id => (node_id, "max workers")) ∧
        (aftermath gmw nw st).warned = true) := by
  refine ⟨?_, ?_, ?_⟩
  · intro h
    have hc1 : ¬ ((nw : Int) - st.scheduled.length - gmw >
        (st.eligible.length : Int)) := by omega
    have hc2 : ¬ ((nw : Int) - st.scheduled.length - gmw > 0) := by omega
    constructor
    · simp only [aftermath]
      rw [if_neg hc1, if_neg hc2]
      simp
    · simp [aftermath, hc1]
  · intro h1 h2
    have hc1 : ¬ ((nw : Int) - st.scheduled.length - gmw >
        (st.eligible.length : Int)) := by omega
    have hc2 : (nw : Int) - st.scheduled.length - gmw > 0 := h1
    constructor
    · simp only [aftermath]
      rw [if_neg hc1, if_pos hc2]
    · simp [aftermath, hc1]
  · intro h
    have hc1 : (nw : Int) - st.scheduled.length - gmw >
        (st.eligible.length : Int) := by omega
    constructor
    · simp only [aftermath]
      rw [if_pos hc1]
      by_cases hlen0 : st.eligible.length = 0
      · have heln : st.eligible = [] := List.length_eq_zero.mp hlen0
        rw [if_neg (by omega : ¬ ((st.eligible.length : Int) > 0))]
        simp [heln]
      · rw [if_pos (by omega : ((st.eligible.length : Int) > 0))]
        have he : st.eligible.length - ((st.eligible.length : Int)).toNat = 0 := by
          omega
        rw [he, List.drop_zero]
    · simp [aftermath, hc1]

/-- C3: in `terminate_nodes_to_enforce_config_constraints`, every
decide-later worker not protected by `request_resources` is scheduled for
termination with reason "idle" iff its ip has a recorded last-used time
earlier than `now - 60 * idle_timeout_minutes` (the `idleCheck`
condition); else with reason "outdated" iff `launch_config_ok` is false;
else it is kept and appended to the eligible-for-extra-termination list.
Afterwards, with `surplus = |workers| - |scheduled| - max_workers`: if the
surplus is positive and at most the eligible list's length, exactly the
last surplus-many entries of the eligible list are additionally scheduled
with reason "max workers" (without warning); if the surplus exceeds the
eligible list's length, only the eligible workers are scheduled and the
inconsistency warning is logged; a nonpositive surplus schedules nothing
more.  The last conjunct ties the full routine to the sort, the fold of
the per-worker step and the surplus step. -/
theorem C3_terminate_nodes_for_config_constraints :
    (∀ (lastUsed : List (String × ℚ)) (horizon : ℚ) (ip : String),
      idleCheck lastUsed horizon ip = true ↔
        ∃ t, lastUsed.lookup ip = some t ∧ t < horizon) ∧
    (∀ (env : TickEnv) (now : ℚ) (st : TermState) (w : Worker),
      (keepWorkerOfNodeType env.launchEnv.ant w.tags st.counts).1 =
        KeepOrTerminate.decide_later →
      w.id ∉ env.protectedNodes →
      ((∀ t : ℚ, env.lastUsed.lookup w.ip = some t →
          t < now - 60 * env.idle_timeout_minutes →
          processWorker env now st w = scheduleTermination st w.id "idle") ∧
        (idleCheck env.lastUsed (now - 60 * env.idle_timeout_minutes) w.ip =
            false →
          launchConfigOk env.launchEnv w.tags = false →
          processWorker env now st w = scheduleTermination st w.id "outdated") ∧
        (idleCheck env.lastUsed (now - 60 * env.idle_timeout_minutes) w.ip =
            false →
          launchConfigOk env.launchEnv w.tags = true →
          processWorker env now st w =
            { keepNode st w.tags with
                eligible := (keepNode st w.tags).eligible ++ [w.id] }))) ∧
    (∀ (gmw nw : Nat) (st : TermState),
      ((nw : Int) - st.scheduled.length - gmw ≤ 0 →
        (aftermath gmw nw st).scheduled = st.scheduled ∧
          (aftermath gmw nw st).warned = false) ∧
      (0 < (nw : Int) - st.scheduled.length - gmw →
        (nw : Int) - st.scheduled.length - gmw ≤ (st.eligible.length : Int) →
        (aftermath gmw nw st).scheduled =
          st.scheduled ++
            (st.eligible.drop (st.eligible.length -
              ((nw : Int) - st.scheduled.length - gmw).toNat)).map
              (fun node_id => (node_id, "max workers")) ∧
          (aftermath gmw nw st).warned = false) ∧
      ((st.eligible.length : Int) < (nw : Int) - st.scheduled.length - gmw →
        (aftermath gmw nw st).scheduled =
          st.scheduled ++
            st.eligible.map (fun node_id => (node_id, "max workers")) ∧
          (aftermath gmw nw st).warned = true)) ∧
    (∀ (env : TickEnv) (now : ℚ) (workers : List Worker),
      terminateNodesToEnforceConfigConstraints env now workers =
        aftermath env.global_max_workers workers.length
          ((sortBasedOnLastUsed env.lastUsed workers).foldl
            (processWorker env now) initTermState)) := by
  exact ⟨idleCheck_true_iff,
    processWorker_decide_later_cases,
    aftermath_characterization,
    fun env now workers => rfl⟩

/-- Witness for C3 at a concrete input: a decide-later unprotected worker
whose ip was last used at time 5 with horizon 40 is scheduled as idle. -/
theorem C3_terminate_nodes_for_config_constraints_witness :
    processWorker
        ⟨⟨false, [("w", ⟨some 0, some 5⟩)], fun _ => "h"⟩, 5, 1, [("ip1", 5)], []⟩
        100 initTermState
        ⟨"n1", "ip1", ⟨some "worker", some "w", none, some "h"⟩⟩ =
      scheduleTermination initTermState "n1" "idle" :=
  ((C3_terminate_nodes_for_config_constraints.2.1
      ⟨⟨false, [("w", ⟨some 0, some 5⟩)], fun _ => "h"⟩, 5, 1, [("ip1", 5)], []⟩
      100 initTermState
      ⟨"n1", "ip1", ⟨some "worker", some "w", none, some "h"⟩⟩
      (by decide) (by decide)).1) 5 rfl (by norm_num)

/-! ## C9 -/

/-- C9 counterexample: with `idle_timeout_minutes = 0`, a tick at
`now = 10` over one decide-later, unprotected worker whose ip was last
used at time 5 schedules that worker for termination with reason "idle"
(`horizon = now - 60*0 = now` and `5 < 10`).  The claim says no worker is
ever scheduled with reason "idle" when the timeout is zero. -/
theorem C9_idle_timeout_zero_counterexample :
    (terminateNodesToEnforceConfigConstraints
        ⟨⟨false, [("w", ⟨some 0, some 5⟩)], fun _ => "h"⟩, 5, 0, [("ip1", 5)], []⟩
        10
        [⟨"n1", "ip1", ⟨some "worker", some "w", none, some "h"⟩⟩]).scheduled =
      [("n1", "idle")] := by
  have h1 : processWorker
      ⟨⟨false, [("w", ⟨some 0, some 5⟩)], fun _ => "h"⟩, 5, 0, [("ip1", 5)], []⟩
      10 initTermState
      ⟨"n1", "ip1", ⟨some "worker", some "w", none, some "h"⟩⟩ =
      scheduleTermination initTermState "n1" "idle" :=
    (processWorker_decide_later_cases
      ⟨⟨false, [("w", ⟨some 0, some 5⟩)], fun _ => "h"⟩, 5, 0, [("ip1", 5)], []⟩
      10 initTermState
      ⟨"n1", "ip1", ⟨some "worker", some "w", none, some "h"⟩⟩
      (by decide) (by decide)).1 5 rfl (by norm_num)
  show (aftermath 5 1
      ((sortBasedOnLastUsed [("ip1", 5)]
        [⟨"n1", "ip1", ⟨some "worker", some "w", none, some "h"⟩⟩]).foldl
        (processWorker
          ⟨⟨false, [("w", ⟨some 0, some 5⟩)], fun _ => "h"⟩, 5, 0, [("ip1", 5)],
            []⟩ 10)
        initTermState)).scheduled = [("n1", "idle")]
  rw [show sortBasedOnLastUsed [("ip1", 5)]
      [⟨"n1", "ip1", ⟨some "worker", some "w", none, some "h"⟩⟩] =
      [⟨"n1", "ip1", ⟨some "worker", some "w", none, some "h"⟩⟩] from rfl,
    List.foldl_cons, List.foldl_nil, h1]
  rfl

/-- C9 as amended: with `idle_timeout_minutes = 0` the idle horizon equals
`now`, so a decide-later, unprotected worker is scheduled for termination
with reason "idle" exactly when its ip has a recorded last-used time
strictly earlier than `now`; in particular a worker whose recorded
last-used time equals `now` (or whose ip has no record) is not terminated
for idleness, but any recorded time in the past does trigger it. -/
theorem C9_idle_timeout_zero_behavior (env : TickEnv) (now : ℚ)
    (st : TermState) (w : Worker)
    (h0 : env.idle_timeout_minutes = 0)
    (hkt : (keepWorkerOfNodeType env.launchEnv.ant w.tags st.counts).1 =
      KeepOrTerminate.decide_later)
    (hprot : w.id ∉ env.protectedNodes) :
    processWorker env now st w = scheduleTermination st w.id "idle" ↔
      ∃ t, env.lastUsed.lookup w.ip = some t ∧ t < now := by
  have hhz : now - 60 * env.idle_timeout_minutes = now := by rw [h0]; ring
  constructor
  · intro heq
    by_cases hid : idleCheck env.lastUsed (now - 60 * env.idle_timeout_minutes)
        w.ip = true
    · rcases (idleCheck_true_iff _ _ _).mp hid with ⟨t, hl, hlt⟩
      exact ⟨t, hl, by rwa [hhz] at hlt⟩
    · exfalso
      have hid' : idleCheck env.lastUsed (now - 60 * env.idle_timeout_minutes)
          w.ip = false := by
        revert hid
        cases idleCheck env.lastUsed (now - 60 * env.idle_timeout_minutes) w.ip <;>
          simp
      by_cases hcfg : launchConfigOk env.launchEnv w.tags = true
      · have hpw := (processWorker_decide_later_cases env now st w hkt
          hprot).2.2 hid' hcfg
        rw [hpw] at heq
        have hs := congrArg TermState.scheduled heq
        simp only [scheduleTermination] at hs
        rw [keepNode_scheduled] at hs
        have hlen := congrArg List.length hs
        simp at hlen
      · have hcfg' : launchConfigOk env.launchEnv w.tags = false := by
          revert hcfg
          cases launchConfigOk env.launchEnv w.tags <;> simp
        have hpw := (processWorker_decide_later_cases env now st w hkt
          hprot).2.1 hid' hcfg'
        rw [hpw] at heq
        have hs := congrArg TermState.scheduled heq
        simp only [scheduleTermination] at hs
        simp at hs
  · rintro ⟨t, hl, hlt⟩
    exact (processWorker_decide_later_cases env now st w hkt hprot).1 t hl
      (by rwa [hhz])

/-- Witness for C9 (amended) at a concrete input: timeout zero, last used
at 5, now 10 — the worker is idle-scheduled. -/
theorem C9_idle_timeout_zero_behavior_witness :
    processWorker
        ⟨⟨false, [("w", ⟨some 0, some 5⟩)], fun _ => "h"⟩, 5, 0, [("ip1", 5)], []⟩
        10 initTermState
        ⟨"n1", "ip1", ⟨some "worker", some "w", none, some "h"⟩⟩ =
      scheduleTermination initTermState "n1" "idle" :=
  (C9_idle_timeout_zero_behavior
      ⟨⟨false, [("w", ⟨some 0, some 5⟩)], fun _ => "h"⟩, 5, 0, [("ip1", 5)], []⟩
      10 initTermState
      ⟨"n1", "ip1", ⟨some "worker", some "w", none, some "h"⟩⟩
      rfl (by decide) (by decide)).mpr ⟨5, rfl, by norm_num⟩

/-! ## C10 -/

theorem launchConfigOk_of_disabled (env : LaunchEnv) (tags : Tags)
    (h : env.disable_launch_config_check = true) :
    launchConfigOk env tags = true := by
  simp [launchConfigOk, h]

theorem keepWorker_snd_cases (ant : List (String × NodeTypeSpec)) (tags : Tags)
    (counts : String → Nat) :
    (keepWorkerOfNodeType ant tags counts).2 = none ∨
    (∃ s, (keepWorkerOfNodeType ant tags counts).2 =
      some ("not in available_node_types: " ++ s)) ∨
    (keepWorkerOfNodeType ant tags counts).2 = some "max_workers_per_type" := by
  unfold keepWorkerOfNodeType
  dsimp only
  split
  · split_ifs with h1 h2 h3
    · exact Or.inr (Or.inl ⟨toString (ant.map Prod.fst), rfl⟩)
    · exact Or.inl rfl
    · exact Or.inr (Or.inr rfl)
    · exact Or.inl rfl
  · exact Or.inl rfl

theorem keepWorker_reason_ne_outdated (ant : List (String × NodeTypeSpec))
    (tags : Tags) (counts : String → Nat) (r : String)
    (h : (keepWorkerOfNodeType ant tags counts).2 = some r) : r ≠ "outdated" := by
  rcases keepWorker_snd_cases ant tags counts with hc | ⟨s, hc⟩ | hc
  · rw [hc] at h
    exact Option.noConfusion h
  · rw [hc] at h
    have hr : r = "not in available_node_types: " ++ s := (Option.some.inj h).symm
    subst hr
    intro hcontra
    have hl := congrArg String.length hcontra
    rw [String.length_append] at hl
    have h1 : ("not in available_node_types: " : String).length = 29 := rfl
    have h2 : ("outdated" : String).length = 8 := rfl
    omega
  · rw [hc] at h
    have hr : r = "max_workers_per_type" := (Option.some.inj h).symm
    subst hr
    exact (by decide : ("max_workers_per_type" : String) ≠ "outdated")

theorem processWorker_no_outdated (env : TickEnv) (now : ℚ) (st : TermState)
    (w : Worker) (hflag : env.launchEnv.disable_launch_config_check = true)
    (hinv : ∀ p ∈ st.scheduled, p.2 ≠ "outdated") :
    ∀ p ∈ (processWorker env now st w).scheduled, p.2 ≠ "outdated" := by
  have hcfg : launchConfigOk env.launchEnv w.tags = true :=
    launchConfigOk_of_disabled _ _ hflag
  by_cases h1 : (keepWorkerOfNodeType env.launchEnv.ant w.tags st.counts).1 =
      KeepOrTerminate.terminate
  · simp only [processWorker]
    rw [if_pos h1]
    intro p hp
    rcases List.mem_append.mp hp with hp | hp
    · exact hinv p hp
    · rw [List.mem_singleton] at hp
      subst hp
      rcases hk2 : (keepWorkerOfNodeType env.launchEnv.ant w.tags st.counts).2 with
        _ | r
      · simp [hk2]
      · simp only [hk2, Option.getD_some]
        exact keepWorker_reason_ne_outdated _ _ _ _ hk2
  · by_cases h2 : ((keepWorkerOfNodeType env.launchEnv.ant w.tags st.counts).1 =
        KeepOrTerminate.keep ∨ w.id ∈ env.protectedNodes) ∧
        launchConfigOk env.launchEnv w.tags = true
    · simp only [processWorker]
      rw [if_neg h1, if_pos h2]
      intro p hp
      rw [keepNode_scheduled] at hp
      exact hinv p hp
    · by_cases h3 : idleCheck env.lastUsed (now - 60 * env.idle_timeout_minutes)
          w.ip = true
      · simp only [processWorker]
        rw [if_neg h1, if_neg h2, if_pos h3]
        intro p hp
        rcases List.mem_append.mp hp with hp | hp
        · exact hinv p hp
        · rw [List.mem_singleton] at hp
          subst hp
          exact (by decide : ("idle" : String) ≠ "outdated")
      · simp only [processWorker]
        rw [if_neg h1, if_neg h2, if_neg h3, if_neg (by simp [hcfg])]
        intro p hp
        simp only at hp
        rw [keepNode_scheduled] at hp
        exact hinv p hp

theorem foldl_processWorker_no_outdated (env : TickEnv) (now : ℚ)
    (hflag : env.launchEnv.disable_launch_config_check = true)
    (l : List Worker) (st : TermState)
    (hinv : ∀ p ∈ st.scheduled, p.2 ≠ "outdated") :
    ∀ p ∈ (l.foldl (processWorker env now) st).scheduled, p.2 ≠ "outdated" := by
  induction l generalizing st with
  | nil => exact hinv
  | cons w ws ih =>
    simp only [List.foldl_cons]
    exact ih _ (processWorker_no_outdated env now st w hflag hinv)

theorem aftermath_no_outdated (gmw nw : Nat) (st : TermState)
    (hinv : ∀ p ∈ st.scheduled, p.2 ≠ "outdated") :
    ∀ p ∈ (aftermath gmw nw st).scheduled, p.2 ≠ "outdated" := by
  simp only [aftermath]
  intro p hp
  rcases List.mem_append.mp hp with hp | hp
  · exact hinv p hp
  · rcases List.mem_map.mp hp with ⟨a, ha, rfl⟩
    exact (by decide : ("max workers" : String) ≠ "outdated")

/-- C10: if `disable_launch_config_check` is true in the provider config,
`launch_config_ok` returns true for every node — regardless of the node's
launch-config-hash tag and even when the node's type was removed from
`available_node_types` — so no node is ever scheduled for termination with
reason "outdated" by `terminate_nodes_to_enforce_config_constraints`, and
`can_update` is then decided solely by `disable_node_updaters`, the
running-updater map and the failed-update count (launch-config checking
never makes it false). -/
theorem C10_disable_launch_config_check :
    (∀ (env : LaunchEnv) (tags : Tags),
      env.disable_launch_config_check = true → launchConfigOk env tags = true) ∧
    (∀ (env : TickEnv) (now : ℚ) (workers : List Worker),
      env.launchEnv.disable_launch_config_check = true →
      ∀ p ∈ (terminateNodesToEnforceConfigConstraints env now workers).scheduled,
        p.2 ≠ "outdated") ∧
    (∀ (env : UpdEnv) (st : ScalerState) (node_id : String),
      env.launchEnv.disable_launch_config_check = true →
      (canUpdate env st node_id = true ↔
        (env.disable_node_updaters = false ∧
          st.updaters.lookup node_id = none ∧
          st.num_failed_updates node_id = 0))) := by
  refine ⟨launchConfigOk_of_disabled, ?_, ?_⟩
  · intro env now workers hflag
    exact aftermath_no_outdated _ _ _
      (foldl_processWorker_no_outdated env now hflag _ initTermState (by simp [initTermState]))
  · intro env st node_id hflag
    have hcfg : launchConfigOk env.launchEnv (env.tags node_id) = true :=
      launchConfigOk_of_disabled _ _ hflag
    rcases hdu : env.disable_node_updaters with _ | _
    · rcases hup : st.updaters.lookup node_id with _ | u
      · by_cases hf : st.num_failed_updates node_id = 0
        · simp [canUpdate, hdu, hup, hcfg, hf]
        · simp [canUpdate, hdu, hup, hcfg, hf]
      · simp [canUpdate, hdu, hup]
    · simp [canUpdate, hdu]

/-- Witness for C10 at a concrete input: with the check disabled, a node
whose type is absent from `available_node_types` and whose launch-config
tag is stale still passes `launch_config_ok`, and `can_update` reduces to
the three remaining conditions. -/
theorem C10_disable_launch_config_check_witness :
    launchConfigOk ⟨true, [], fun _ => "h"⟩
        ⟨some "worker", some "gone", none, some "stale"⟩ = true ∧
    (canUpdate
        ⟨false, ⟨true, [], fun _ => "h"⟩, fun _ =>
          ⟨some "worker", some "gone", none, some "stale"⟩, fun _ => "ip", 30⟩
        { updaters := [], num_successful_updates := fun _ => 0,
          num_failed_updates := fun _ => 0, successful_updates_total := 0,
          failed_updates_total := 0, successful_recoveries := 0,
          failed_recoveries := 0, lm := ⟨[], []⟩, tracked := [],
          worker_ids := [], all_node_ids := [], scheduled := [],
          terminated_batches := [], termination_log := [] } "n1" = true ↔
      ((false : Bool) = false ∧
        (([] : List (String × Updater)).lookup "n1" = none) ∧
        (fun (_ : String) => (0 : Nat)) "n1" = 0)) :=
  ⟨C10_disable_launch_config_check.1 ⟨true, [], fun _ => "h"⟩
      ⟨some "worker", some "gone", none, some "stale"⟩ rfl,
    C10_disable_launch_config_check.2.2
      ⟨false, ⟨true, [], fun _ => "h"⟩, fun _ =>
        ⟨some "worker", some "gone", none, some "stale"⟩, fun _ => "ip", 30⟩
      { updaters := [], num_successful_updates := fun _ => 0,
        num_failed_updates := fun _ => 0, successful_updates_total := 0,
        failed_updates_total := 0, successful_recoveries := 0,
        failed_recoveries := 0, lm := ⟨[], []⟩, tracked := [],
        worker_ids := [], all_node_ids := [], scheduled := [],
        terminated_batches := [], termination_log := [] } "n1" rfl⟩

/-! ## C6 -/

theorem eraseKey_sublist {β : Type} (m : List (String × β)) (k : String) :
    List.Sublist (eraseKey m k) m :=
  List.eraseP_sublist m

theorem keys_nodup_eraseKey {β : Type} {m : List (String × β)} (k : String)
    (h : (m.map Prod.fst).Nodup) : ((eraseKey m k).map Prod.fst).Nodup :=
  h.sublist ((eraseKey_sublist m k).map Prod.fst)

theorem lookup_eraseKey_self {β : Type} {m : List (String × β)} (k : String)
    (h : (m.map Prod.fst).Nodup) : (eraseKey m k).lookup k = none := by
  rw [lookup_eq_none_iff]
  induction m with
  | nil => simp [eraseKey]
  | cons p t ih =>
    rcases p with ⟨a, b⟩
    simp only [List.map_cons, List.nodup_cons] at h
    by_cases hak : a = k
    · subst hak
      simp only [eraseKey, List.eraseP_cons, beq_self_eq_true, cond_true]
      exact h.1
    · have hbeq : (a == k) = false := beq_false_of_ne hak
      simp only [eraseKey, List.eraseP_cons, hbeq, cond_false, List.map_cons,
        List.mem_cons, not_or]
      exact ⟨Ne.symm hak, ih h.2⟩

theorem lookup_eraseKey_of_none {β : Type} {m : List (String × β)}
    {k : String} (j : String) (h : m.lookup k = none) :
    (eraseKey m j).lookup k = none := by
  rw [lookup_eq_none_iff] at h ⊢
  intro hmem
  exact h (((eraseKey_sublist m j).map Prod.fst).mem hmem)

theorem lookup_foldl_eraseKey_of_none {β : Type} (ids : List String)
    {m : List (String × β)} {k : String} (h : m.lookup k = none) :
    ((ids.foldl eraseKey m).lookup k) = none := by
  induction ids generalizing m with
  | nil => exact h
  | cons a rest ih =>
    simp only [List.foldl_cons]
    exact ih (lookup_eraseKey_of_none a h)

theorem lookup_foldl_eraseKey {β : Type} (ids : List String)
    {m : List (String × β)} (hnd : (m.map Prod.fst).Nodup) {k : String}
    (hk : k ∈ ids) : ((ids.foldl eraseKey m).lookup k) = none := by
  induction ids generalizing m with
  | nil => simp at hk
  | cons a rest ih =>
    simp only [List.foldl_cons]
    rcases List.mem_cons.mp hk with rfl | hk'
    · exact lookup_foldl_eraseKey_of_none rest (lookup_eraseKey_self k hnd)
    · exact ih (keys_nodup_eraseKey a hnd) hk'

theorem processOneCompleted_fields (ipOf : String → String) (now : ℚ)
    (acc : ScalerState × List String) (p : String × Updater) :
    (processOneCompleted ipOf now acc p).1.worker_ids = acc.1.worker_ids ∧
    (processOneCompleted ipOf now acc p).1.all_node_ids = acc.1.all_node_ids ∧
    (processOneCompleted ipOf now acc p).1.scheduled = acc.1.scheduled ∧
    (processOneCompleted ipOf now acc p).1.terminated_batches =
      acc.1.terminated_batches ∧
    (processOneCompleted ipOf now acc p).1.termination_log =
      acc.1.termination_log ∧
    (processOneCompleted ipOf now acc p).1.updaters =
      eraseKey acc.1.updaters p.1 ∧
    (processOneCompleted ipOf now acc p).2 =
      (if p.2.exitcode = 0 then acc.2 else acc.2 ++ [p.1]) := by
  by_cases he : p.2.exitcode = 0 <;> simp [processOneCompleted, he]

theorem foldl_processOneCompleted_fields (ipOf : String → String) (now : ℚ)
    (l : List (String × Updater)) (st : ScalerState) (f0 : List String) :
    (l.foldl (processOneCompleted ipOf now) (st, f0)).1.worker_ids =
      st.worker_ids ∧
    (l.foldl (processOneCompleted ipOf now) (st, f0)).1.all_node_ids =
      st.all_node_ids ∧
    (l.foldl (processOneCompleted ipOf now) (st, f0)).1.scheduled =
      st.scheduled ∧
    (l.foldl (processOneCompleted ipOf now) (st, f0)).1.terminated_batches =
      st.terminated_batches ∧
    (l.foldl (processOneCompleted ipOf now) (st, f0)).1.termination_log =
      st.termination_log ∧
    (l.foldl (processOneCompleted ipOf now) (st, f0)).1.updaters =
      (l.map Prod.fst).foldl eraseKey st.updaters ∧
    (l.foldl (processOneCompleted ipOf now) (st, f0)).2 =
      f0 ++ (l.filter (fun p => !(p.2.exitcode == 0))).map Prod.fst := by
  induction l generalizing st f0 with
  | nil => simp
  | cons p t ih =>
    simp only [List.foldl_cons]
    rcases processOneCompleted_fields ipOf now (st, f0) p with
      ⟨hw, ha, hs, hb, hl, hu, hf⟩
    rcases ih (processOneCompleted ipOf now (st, f0) p).1
        (processOneCompleted ipOf now (st, f0) p).2 with
      ⟨iw, ia, is_, ib, il, iu, if_⟩
    refine ⟨iw.trans hw, ia.trans ha, is_.trans hs, ib.trans hb, il.trans hl,
      ?_, ?_⟩
    · rw [iu, hu]
      simp [List.foldl_cons]
    · rw [if_, hf]
      by_cases he : p.2.exitcode = 0 <;> simp [he]

theorem scheduleFold_fields (failed : List String) (st1 : ScalerState) :
    ((failed.foldl
        (fun s node_id =>
          if node_id ∈ s.worker_ids then
            scheduleNodeTermination s node_id "launch failed"
          else s) st1)).worker_ids = st1.worker_ids ∧
    ((failed.foldl
        (fun s node_id =>
          if node_id ∈ s.worker_ids then
            scheduleNodeTermination s node_id "launch failed"
          else s) st1)).updaters = st1.updaters ∧
    ((failed.foldl
        (fun s node_id =>
          if node_id ∈ s.worker_ids then
            scheduleNodeTermination s node_id "launch failed"
          else s) st1)).terminated_batches = st1.terminated_batches ∧
    ((failed.foldl
        (fun s node_id =>
          if node_id ∈ s.worker_ids then
            scheduleNodeTermination s node_id "launch failed"
          else s) st1)).scheduled =
      st1.scheduled ++
        (failed.filter (fun node_id => decide (node_id ∈ st1.worker_ids))).map
          (fun node_id => (node_id, "launch failed")) ∧
    ((failed.foldl
        (fun s node_id =>
          if node_id ∈ s.worker_ids then
            scheduleNodeTermination s node_id "launch failed"
          else s) st1)).termination_log =
      st1.termination_log ++
        (failed.filter (fun node_id => decide (node_id ∈ st1.worker_ids))).map
          (fun node_id => (node_id, "launch failed")) := by
  induction failed generalizing st1 with
  | nil => simp
  | cons a rest ih =>
    simp only [List.foldl_cons]
    by_cases hm : a ∈ st1.worker_ids
    · rcases ih (scheduleNodeTermination st1 a "launch failed") with
        ⟨iw, iu, ib, is_, il⟩
      refine ⟨?_, ?_, ?_, ?_, ?_⟩
      · rw [if_pos hm]
        exact iw.trans (by simp [scheduleNodeTermination])
      · rw [if_pos hm]
        exact iu.trans (by simp [scheduleNodeTermination])
      · rw [if_pos hm]
        exact ib.trans (by simp [scheduleNodeTermination])
      · rw [if_pos hm, is_]
        simp [scheduleNodeTermination, List.filter_cons, hm]
      · rw [if_pos hm, il]
        simp [scheduleNodeTermination, List.filter_cons, hm]
    · rcases ih st1 with ⟨iw, iu, ib, is_, il⟩
      refine ⟨?_, ?_, ?_, ?_, ?_⟩
      · rw [if_neg hm]
        exact iw
      · rw [if_neg hm]
        exact iu
      · rw [if_neg hm]
        exact ib
      · rw [if_neg hm, is_]
        simp [List.filter_cons, hm]
      · rw [if_neg hm, il]
        simp [List.filter_cons, hm]

theorem terminateScheduledNodes_updaters (st : ScalerState) :
    (terminateScheduledNodes st).updaters = st.updaters := by
  by_cases h : st.scheduled.isEmpty <;> simp [terminateScheduledNodes, h]

theorem terminateScheduledNodes_log (st : ScalerState) :
    (terminateScheduledNodes st).termination_log = st.termination_log := by
  by_cases h : st.scheduled.isEmpty <;> simp [terminateScheduledNodes, h]

theorem terminateScheduledNodes_batches (st : ScalerState) :
    (terminateScheduledNodes st).terminated_batches =
      st.terminated_batches ++
        (if st.scheduled.isEmpty then [] else [st.scheduled.map Prod.fst]) := by
  by_cases h : st.scheduled.isEmpty <;> simp [terminateScheduledNodes, h]

theorem isEmpty_map {α β : Type} (f : α → β) (l : List α) :
    (l.map f).isEmpty = l.isEmpty := by
  rcases l with _ | ⟨a, t⟩ <;> simp

theorem processCompletedUpdates_updaters (ipOf : String → String) (now : ℚ)
    (st : ScalerState) (hemp : ¬ (completedUpdaters st).isEmpty = true) :
    (processCompletedUpdates ipOf now st).updaters =
      ((completedUpdaters st).map Prod.fst).foldl eraseKey st.updaters := by
  simp only [processCompletedUpdates]
  rw [if_neg hemp]
  by_cases hfail :
      ((completedUpdaters st).foldl (processOneCompleted ipOf now)
        (st, [])).2.isEmpty
  · rw [if_pos hfail]
    exact (foldl_processOneCompleted_fields ipOf now (completedUpdaters st) st
      []).2.2.2.2.2.1
  · rw [if_neg hfail, terminateScheduledNodes_updaters,
      (scheduleFold_fields _ _).2.1]
    exact (foldl_processOneCompleted_fields ipOf now (completedUpdaters st) st
      []).2.2.2.2.2.1

/-- C6: for every updater found no longer alive by
`process_completed_updates`: on exit code zero it increments that node's
successful-update count (and the successful-updates metric), marks the
node's ip active (both last-heartbeat and last-used become `now`), counts
a recovery exactly when `for_recovery` is set, and deletes the entry; it
neither schedules a termination nor touches the node tracker.  On non-zero
exit it increments the node's failed-update count (and metric), counts a
failed recovery when `for_recovery` is set, untracks the node, appends it
to the local `failed_nodes` list and deletes the entry.  After the whole
call every completed entry is deleted from the updater map; the nodes
scheduled with reason "launch failed" are exactly the failed ones still in
the current worker set; and those terminations happen in a single provider
batch (`terminated_batches` grows by one batch containing exactly those
ids, or not at all when there are none). -/
theorem C6_process_completed_updates :
    (∀ (ipOf : String → String) (now : ℚ) (st : ScalerState)
        (failed : List String) (node_id : String) (u : Updater),
      u.exitcode = 0 →
      ((processOneCompleted ipOf now (st, failed)
          (node_id, u)).1.num_successful_updates node_id =
        st.num_successful_updates node_id + 1 ∧
      (processOneCompleted ipOf now (st, failed)
          (node_id, u)).1.successful_updates_total =
        st.successful_updates_total + 1 ∧
      (processOneCompleted ipOf now (st, failed)
          (node_id, u)).1.lm.last_heartbeat_time_by_ip.lookup (ipOf node_id) =
        some now ∧
      (processOneCompleted ipOf now (st, failed)
          (node_id, u)).1.lm.last_used_time_by_ip.lookup (ipOf node_id) =
        some now ∧
      (processOneCompleted ipOf now (st, failed)
          (node_id, u)).1.successful_recoveries =
        (if u.for_recovery then st.successful_recoveries + 1
          else st.successful_recoveries) ∧
      (processOneCompleted ipOf now (st, failed) (node_id, u)).1.updaters =
        eraseKey st.updaters node_id ∧
      (processOneCompleted ipOf now (st, failed) (node_id, u)).2 = failed ∧
      (processOneCompleted ipOf now (st, failed) (node_id, u)).1.scheduled =
        st.scheduled ∧
      (processOneCompleted ipOf now (st, failed) (node_id, u)).1.tracked =
        st.tracked)) ∧
    (∀ (ipOf : String → String) (now : ℚ) (st : ScalerState)
        (failed : List String) (node_id : String) (u : Updater),
      ¬ u.exitcode = 0 →
      ((processOneCompleted ipOf now (st, failed)
          (node_id, u)).1.num_failed_updates node_id =
        st.num_failed_updates node_id + 1 ∧
      (processOneCompleted ipOf now (st, failed)
          (node_id, u)).1.failed_updates_total = st.failed_updates_total + 1 ∧
      (processOneCompleted ipOf now (st, failed)
          (node_id, u)).1.failed_recoveries =
        (if u.for_recovery then st.failed_recoveries + 1
          else st.failed_recoveries) ∧
      node_id ∉ (processOneCompleted ipOf now (st, failed)
          (node_id, u)).1.tracked ∧
      (processOneCompleted ipOf now (st, failed) (node_id, u)).1.updaters =
        eraseKey st.updaters node_id ∧
      (processOneCompleted ipOf now (st, failed) (node_id, u)).2 =
        failed ++ [node_id] ∧
      (processOneCompleted ipOf now (st, failed) (node_id, u)).1.lm = st.lm ∧
      (processOneCompleted ipOf now (st, failed) (node_id, u)).1.scheduled =
        st.scheduled)) ∧
    (∀ (ipOf : String → String) (now : ℚ) (st : ScalerState),
      (st.updaters.map Prod.fst).Nodup →
      ∀ node_id ∈ (completedUpdaters st).map Prod.fst,
        (processCompletedUpdates ipOf now st).updaters.lookup node_id = none) ∧
    (∀ (ipOf : String → String) (now : ℚ) (st : ScalerState),
      st.scheduled = [] →
      ((processCompletedUpdates ipOf now st).terminated_batches =
        st.terminated_batches ++
          (if ((((completedUpdaters st).filter
                (fun p => !(p.2.exitcode == 0))).map Prod.fst).filter
                (fun node_id => decide (node_id ∈ st.worker_ids))).isEmpty
            then []
            else [(((completedUpdaters st).filter
                (fun p => !(p.2.exitcode == 0))).map Prod.fst).filter
                (fun node_id => decide (node_id ∈ st.worker_ids))]) ∧
      (processCompletedUpdates ipOf now st).termination_log =
        st.termination_log ++
          ((((completedUpdaters st).filter
              (fun p => !(p.2.exitcode == 0))).map Prod.fst).filter
              (fun node_id => decide (node_id ∈ st.worker_ids))).map
            (fun node_id => (node_id, "launch failed")))) := by
  refine ⟨?_, ?_, ?_, ?_⟩
  · intro ipOf now st failed node_id u he
    refine ⟨?_, ?_, ?_, ?_, ?_, ?_, ?_, ?_, ?_⟩ <;>
      simp [processOneCompleted, he, markActive, lookup_setKey_self]
  · intro ipOf now st failed node_id u he
    refine ⟨?_, ?_, ?_, ?_, ?_, ?_, ?_, ?_⟩ <;>
      simp [processOneCompleted, he]
  · intro ipOf now st hnd node_id hid
    by_cases hemp : (completedUpdaters st).isEmpty = true
    · rw [List.isEmpty_iff.mp hemp] at hid
      simp at hid
    · rw [processCompletedUpdates_updaters ipOf now st hemp]
      exact lookup_foldl_eraseKey _ hnd hid
  · intro ipOf now st hsched
    by_cases hemp : (completedUpdaters st).isEmpty = true
    · have hc : completedUpdaters st = [] := List.isEmpty_iff.mp hemp
      simp only [processCompletedUpdates]
      rw [if_pos hemp, hc]
      simp
    · rcases foldl_processOneCompleted_fields ipOf now (completedUpdaters st)
        st [] with ⟨hw, ha, hs, hb, hl, hu, hf⟩
      simp only [processCompletedUpdates]
      rw [if_neg hemp]
      by_cases hfail :
          ((completedUpdaters st).foldl (processOneCompleted ipOf now)
            (st, [])).2.isEmpty
      · rw [if_pos hfail]
        have hfl : ((completedUpdaters st).filter
            (fun p => !(p.2.exitcode == 0))).map Prod.fst = [] := by
          have h2 := List.isEmpty_iff.mp hfail
          rw [hf] at h2
          simpa using h2
        rw [hfl]
        constructor
        · rw [hb]
          simp
        · rw [hl]
          simp
      · rw [if_neg hfail]
        rcases scheduleFold_fields
            ((completedUpdaters st).foldl (processOneCompleted ipOf now)
              (st, [])).2
            ((completedUpdaters st).foldl (processOneCompleted ipOf now)
              (st, [])).1 with ⟨sw, su, sb, ss, sl⟩
        constructor
        · rw [terminateScheduledNodes_batches, sb, hb, ss, hs, hsched, hw, hf]
          simp only [List.nil_append, List.map_map, Function.comp_def,
            List.append_cancel_left_eq, List.map_id, List.map_id']
          exact if_congr (by rw [isEmpty_map]) rfl rfl
        · rw [terminateScheduledNodes_log, sl, hl, hw, hf]
          simp

/-- Witness for C6 at a concrete input: one completed recovery updater
with exit code 0 — the success count is bumped and the ip marked
active. -/
theorem C6_process_completed_updates_witness :
    (processOneCompleted (fun _ => "ip1") 100
        ({ updaters := [("n1", ⟨false, 0, true⟩)],
           num_successful_updates := fun _ => 0,
           num_failed_updates := fun _ => 0, successful_updates_total := 0,
           failed_updates_total := 0, successful_recoveries := 0,
           failed_recoveries := 0, lm := ⟨[], []⟩, tracked := ["n1"],
           worker_ids := ["n1"], all_node_ids := ["n1"], scheduled := [],
           terminated_batches := [], termination_log := [] }, [])
        ("n1", ⟨false, 0, true⟩)).1.num_successful_updates "n1" = 0 + 1 ∧
    (processOneCompleted (fun _ => "ip1") 100
        ({ updaters := [("n1", ⟨false, 0, true⟩)],
           num_successful_updates := fun _ => 0,
           num_failed_updates := fun _ => 0, successful_updates_total := 0,
           failed_updates_total := 0, successful_recoveries := 0,
           failed_recoveries := 0, lm := ⟨[], []⟩, tracked := ["n1"],
           worker_ids := ["n1"], all_node_ids := ["n1"], scheduled := [],
           terminated_batches := [], termination_log := [] }, [])
        ("n1", ⟨false, 0, true⟩)).1.lm.last_heartbeat_time_by_ip.lookup "ip1" =
      some 100 ∧
    (processOneCompleted (fun _ => "ip1") 100
        ({ updaters := [("n1", ⟨false, 0, true⟩)],
           num_successful_updates := fun _ => 0,
           num_failed_updates := fun _ => 0, successful_updates_total := 0,
           failed_updates_total := 0, successful_recoveries := 0,
           failed_recoveries := 0, lm := ⟨[], []⟩, tracked := ["n1"],
           worker_ids := ["n1"], all_node_ids := ["n1"], scheduled := [],
           terminated_batches := [], termination_log := [] }, [])
        ("n1", ⟨false, 0, true⟩)).1.successful_recoveries = 0 + 1 :=
  ⟨(C6_process_completed_updates.1 (fun _ => "ip1") 100 _ [] "n1"
      ⟨false, 0, true⟩ rfl).1,
    (C6_process_completed_updates.1 (fun _ => "ip1") 100 _ [] "n1"
      ⟨false, 0, true⟩ rfl).2.2.1,
    (C6_process_completed_updates.1 (fun _ => "ip1") 100 _ [] "n1"
      ⟨false, 0, true⟩ rfl).2.2.2.2.1⟩

/-! ## C4 -/

theorem canUpdate_false_of_running (env : UpdEnv) (st : ScalerState)
    (node_id : String) (h : (st.updaters.lookup node_id).isSome = true) :
    canUpdate env st node_id = false := by
  by_cases hd : env.disable_node_updaters = true <;> simp [canUpdate, hd, h]

theorem canUpdate_true_lookup {env : UpdEnv} {st : ScalerState}
    {node_id : String} (h : canUpdate env st node_id = true) :
    st.updaters.lookup node_id = none := by
  by_cases hd : env.disable_node_updaters = true
  · simp [canUpdate, hd] at h
  · rcases ho : st.updaters.lookup node_id with _ | v
    · rfl
    · simp [canUpdate, hd, ho] at h

theorem foldl_eraseKey_sublist {β : Type} (ids : List String)
    (m : List (String × β)) : List.Sublist (ids.foldl eraseKey m) m := by
  induction ids generalizing m with
  | nil => exact List.Sublist.refl m
  | cons a rest ih =>
    simp only [List.foldl_cons]
    exact (ih (eraseKey m a)).trans (eraseKey_sublist m a)

theorem processCompletedUpdates_updaters_sublist (ipOf : String → String)
    (now : ℚ) (st : ScalerState) :
    List.Sublist (processCompletedUpdates ipOf now st).updaters st.updaters := by
  by_cases hemp : (completedUpdaters st).isEmpty = true
  · have : processCompletedUpdates ipOf now st = st := by
      simp only [processCompletedUpdates]
      rw [if_pos hemp]
    rw [this]
  · rw [processCompletedUpdates_updaters ipOf now st hemp]
    exact foldl_eraseKey_sublist _ _

theorem appendKey_nodup {m : List (String × Updater)} {node_id : String}
    (u : Updater) (h : (m.map Prod.fst).Nodup)
    (hlk : m.lookup node_id = none) :
    (((m ++ [(node_id, u)]).map Prod.fst)).Nodup := by
  have hmem : node_id ∉ m.map Prod.fst := not_mem_keys_of_lookup_eq_none hlk
  simp only [List.map_append, List.map_cons, List.map_nil]
  rw [List.nodup_append]
  refine ⟨h, List.nodup_singleton node_id, ?_⟩
  intro a ha hb
  rw [List.mem_singleton] at hb
  subst hb
  exact hmem ha

theorem scalerStep_preserves_nodup (env : UpdEnv) {s s' : ScalerState}
    (hstep : ScalerStep env s s')
    (h : (s.updaters.map Prod.fst).Nodup) :
    (s'.updaters.map Prod.fst).Nodup := by
  cases hstep with
  | spawn node_id u hcan =>
    exact appendKey_nodup u h (canUpdate_true_lookup hcan)
  | recover node_id u now hcan hhb =>
    exact appendKey_nodup u h (canUpdate_true_lookup hcan)
  | finish node_id u pre post hsplit =>
    rw [hsplit] at h
    simpa using h
  | completed now =>
    exact h.sublist
      ((processCompletedUpdates_updaters_sublist env.ipOf now s).map Prod.fst)
  | frame st2 hupd =>
    rw [hupd]
    exact h

/-- C4: at any time at most one updater thread exists per node id.
`can_update` returns false while `self.updaters` already contains the id;
every spawn path (`spawn_updater` via `update_nodes`, and
`recover_if_needed`) first passes `can_update` and only then stores the
new thread under the id; and an entry is removed only by
`process_completed_updates` once its thread is no longer alive.  Hence in
every state the scaler can reach from an empty updater map, the updater
map holds at most one thread per node id (its key list has no
duplicates). -/
theorem C4_one_updater_per_node :
    (∀ (env : UpdEnv) (st : ScalerState) (node_id : String),
      (st.updaters.lookup node_id).isSome = true →
      canUpdate env st node_id = false) ∧
    (∀ (env : UpdEnv) (s0 s : ScalerState), s0.updaters = [] →
      ScalerReachable env s0 s → (s.updaters.map Prod.fst).Nodup) := by
  refine ⟨canUpdate_false_of_running, ?_⟩
  intro env s0 s h0 hreach
  induction hreach with
  | refl => simp [h0]
  | tail hr hstep ih => exact scalerStep_preserves_nodup env hstep ih

/-- Witness for C4 at concrete inputs: `can_update` is false for a node
with a running updater, and the empty initial state (trivially reachable)
has duplicate-free updater keys. -/
theorem C4_one_updater_per_node_witness :
    canUpdate
        ⟨false, ⟨false, [("w", ⟨some 0, some 5⟩)], fun _ => "h"⟩,
          fun _ => ⟨some "worker", some "w", none, some "h"⟩, fun _ => "ip1", 30⟩
        { updaters := [("n1", ⟨true, 0, false⟩)],
          num_successful_updates := fun _ => 0,
          num_failed_updates := fun _ => 0, successful_updates_total := 0,
          failed_updates_total := 0, successful_recoveries := 0,
          failed_recoveries := 0, lm := ⟨[], []⟩, tracked := [],
          worker_ids := ["n1"], all_node_ids := ["n1"], scheduled := [],
          terminated_batches := [], termination_log := [] } "n1" = false ∧
    ((({ updaters := [], num_successful_updates := fun _ => 0,
          num_failed_updates := fun _ => 0, successful_updates_total := 0,
          failed_updates_total := 0, successful_recoveries := 0,
          failed_recoveries := 0, lm := ⟨[], []⟩, tracked := [],
          worker_ids := [], all_node_ids := [], scheduled := [],
          terminated_batches := [],
          termination_log := [] } : ScalerState).updaters.map Prod.fst)).Nodup :=
  ⟨C4_one_updater_per_node.1
      ⟨false, ⟨false, [("w", ⟨some 0, some 5⟩)], fun _ => "h"⟩,
        fun _ => ⟨some "worker", some "w", none, some "h"⟩, fun _ => "ip1", 30⟩
      { updaters := [("n1", ⟨true, 0, false⟩)],
        num_successful_updates := fun _ => 0,
        num_failed_updates := fun _ => 0, successful_updates_total := 0,
        failed_updates_total := 0, successful_recoveries := 0,
        failed_recoveries := 0, lm := ⟨[], []⟩, tracked := [],
        worker_ids := ["n1"], all_node_ids := ["n1"], scheduled := [],
        terminated_batches := [], termination_log := [] } "n1" rfl,
    C4_one_updater_per_node.2
      ⟨false, ⟨false, [("w", ⟨some 0, some 5⟩)], fun _ => "h"⟩,
        fun _ => ⟨some "worker", some "w", none, some "h"⟩, fun _ => "ip1", 30⟩
      { updaters := [], num_successful_updates := fun _ => 0,
        num_failed_updates := fun _ => 0, successful_updates_total := 0,
        failed_updates_total := 0, successful_recoveries := 0,
        failed_recoveries := 0, lm := ⟨[], []⟩, tracked := [],
        worker_ids := [], all_node_ids := [], scheduled := [],
        terminated_batches := [], termination_log := [] }
      { updaters := [], num_successful_updates := fun _ => 0,
        num_failed_updates := fun _ => 0, successful_updates_total := 0,
        failed_updates_total := 0, successful_recoveries := 0,
        failed_recoveries := 0, lm := ⟨[], []⟩, tracked := [],
        worker_ids := [], all_node_ids := [], scheduled := [],
        terminated_batches := [], termination_log := [] }
      rfl Relation.ReflTransGen.refl⟩

end CS
